import Mathlib

/-!
# Infisical agent: token lifecycle, dynamic-secret lease registry, template worker

A shallow embedding of `cli/packages/cmd/agent.go`.

Conventions of the embedding:

* a `time.Time` is an instant, the number of nanoseconds elapsed since Go's
  zero instant (January 1, year 1, 00:00:00 UTC); `IsZero` holds of instant 0
  only.  Wall clock and monotonic clock are identified.
* a `time.Duration` is an `Int` holding an int64 count of nanoseconds; every
  arithmetic operation the source performs on durations (and on Go `int`s) is
  wrapped to 64 bits with `wrap64`.
* calls to `time.Now()` are arguments of the embedded functions, outcomes of
  calls to the secret service are arguments too.
* the engine of `text/template` is outside the source: a template is given by
  the calls of the bound functions `secret` and `dynamic_secret` its execution
  makes, and a render stops with an error at the first call that returns one.
* each operation of the registry is atomic under its mutex and is one call of
  the model; a tick of a worker is modelled with no other worker running in
  between, and `dynamicSecretTemplateFunctionAmong` models a call of
  `dynamic_secret` with the calls of other workers between its steps.
-/

namespace Agent

/-! ## Time -/

/-- Nanoseconds in Go's `time.Second`. -/
def Second : Int := 1000000000

/-- Nanoseconds in Go's `time.Minute`. -/
def Minute : Int := 60 * Second

/-- Smallest `time.Duration`, `-1 << 63`. -/
def minDuration : Int := -9223372036854775808

/-- Largest `time.Duration`, `1<<63 - 1`. -/
def maxDuration : Int := 9223372036854775807

/-- Value of an integer after truncation to a signed 64-bit machine word. -/
def wrap64 (x : Int) : Int :=
  (x + 9223372036854775808) % 18446744073709551616 - 9223372036854775808

/-- Instant of Go's `time.Time`, in nanoseconds since the zero instant. -/
structure Time where
  ns : Int
deriving DecidableEq, Repr

namespace Time

/-- The value `time.Time{}`. -/
def zero : Time := ⟨0⟩

/-- Go `Time.IsZero`. -/
def IsZero (t : Time) : Bool := decide (t.ns = 0)

/-- Go `Time.Add`. -/
def Add (t : Time) (d : Int) : Time := ⟨t.ns + d⟩

/-- Go `Time.Sub`: the difference of two instants, saturated to the range of
a `time.Duration`. -/
def Sub (t u : Time) : Int :=
  if t.ns - u.ns < minDuration then minDuration
  else if maxDuration < t.ns - u.ns then maxDuration
  else t.ns - u.ns

/-- Go `Time.After`. -/
def After (t u : Time) : Bool := decide (u.ns < t.ns)

/-- Go `Time.Before`. -/
def Before (t u : Time) : Bool := decide (t.ns < u.ns)

end Time

/-! ## Token lifecycle manager -/

/-- The fields of `AgentManager` the token lifecycle reads and writes. -/
structure AgentManager where
  accessToken : String
  accessTokenTTL : Int
  accessTokenMaxTTL : Int
  accessTokenFetchedTime : Time
  accessTokenRefreshedTime : Time
  exitAfterAuth : Bool
deriving DecidableEq, Repr

/-- Go `NewAgentManager`: every field it does not set holds its zero value. -/
def NewAgentManager (exitAfterAuth : Bool) : AgentManager :=
  { accessToken := "", accessTokenTTL := 0, accessTokenMaxTTL := 0,
    accessTokenFetchedTime := Time.zero, accessTokenRefreshedTime := Time.zero,
    exitAfterAuth := exitAfterAuth }

/-- Body of a successful login or refresh response of the service: the access
token, and its ttl and max ttl in seconds (Go `int`s). -/
structure UniversalAuthResponse where
  AccessToken : String
  AccessTokenTTL : Int
  AccessTokenMaxTTL : Int
deriving DecidableEq, Repr

/-- Outcome of `FetchNewAccessToken` or `RefreshAccessToken`. -/
inductive OpResult where
  /-- the operation returned an error, the modelled fields are untouched -/
  | failed : OpResult
  /-- the process was terminated -/
  | aborted : OpResult
  /-- the operation returned nil, leaving the manager in the given state -/
  | ok : AgentManager → OpResult
deriving DecidableEq, Repr

/-- Modelled from the spec: `util.PrintErrorMessageAndExit` is not part of the
source file; the spec states that the process aborts with a message. -/
def PrintErrorMessageAndExit : OpResult := OpResult.aborted

/-- Go `AgentManager.SetToken` (the send on the notification channel is not
modelled). -/
def AgentManager.SetToken (tm : AgentManager) (token : String)
    (accessTokenTTL accessTokenMaxTTL : Int) : AgentManager :=
  { tm with accessToken := token, accessTokenTTL := accessTokenTTL,
            accessTokenMaxTTL := accessTokenMaxTTL }

/-- Go `AgentManager.FetchNewAccessToken`.  `login` is the outcome of reading
the credentials and of `util.UniversalAuthLogin`: `none` when any of them
returned an error.  `now` is the value of `time.Now()` at line 530. -/
def AgentManager.FetchNewAccessToken (tm : AgentManager)
    (login : Option UniversalAuthResponse) (now : Time) : OpResult :=
  match login with
  | none => OpResult.failed
  | some loginResponse =>
    let accessTokenTTL := wrap64 (loginResponse.AccessTokenTTL * Second)
    let accessTokenMaxTTL := wrap64 (loginResponse.AccessTokenMaxTTL * Second)
    if accessTokenTTL ≤ 5 * Second then PrintErrorMessageAndExit
    else
      OpResult.ok
        (AgentManager.SetToken { tm with accessTokenFetchedTime := now }
          loginResponse.AccessToken accessTokenTTL accessTokenMaxTTL)

/-- Go `AgentManager.RefreshAccessToken`.  `response` is the outcome of
`api.CallUniversalAuthRefreshAccessToken`, `now` the value of `time.Now()` at
line 551. -/
def AgentManager.RefreshAccessToken (tm : AgentManager)
    (response : Option UniversalAuthResponse) (now : Time) : OpResult :=
  match response with
  | none => OpResult.failed
  | some response =>
    let accessTokenTTL := wrap64 (response.AccessTokenTTL * Second)
    let accessTokenMaxTTL := wrap64 (response.AccessTokenMaxTTL * Second)
    OpResult.ok
      (AgentManager.SetToken { tm with accessTokenRefreshedTime := now }
        response.AccessToken accessTokenTTL accessTokenMaxTTL)

/-- The operation one iteration of `ManageTokenLifecycle` performs. -/
inductive Action where
  | Authenticate : Action
  | Refresh : Action
deriving DecidableEq, Repr

/-- The branch taken at lines 569-600 of `ManageTokenLifecycle`; `now` is the
value of `time.Now()` at line 580. -/
def AgentManager.lifecycleAction (tm : AgentManager) (now : Time) : Action :=
  let accessTokenMaxTTLExpiresInTime :=
    tm.accessTokenFetchedTime.Add (wrap64 (tm.accessTokenMaxTTL - 5 * Second))
  if tm.accessTokenFetchedTime.IsZero && tm.accessTokenRefreshedTime.IsZero then
    Action.Authenticate
  else if now.After accessTokenMaxTTLExpiresInTime then
    Action.Authenticate
  else
    Action.Refresh

/-- How one iteration of the loop of `ManageTokenLifecycle` ends. -/
inductive Iteration where
  /-- the operation failed: `time.Sleep` of the given duration, then `continue` -/
  | retry : AgentManager → Int → Iteration
  /-- the process was terminated by `PrintErrorMessageAndExit` -/
  | aborted : Iteration
  /-- `exitAfterAuth`: `time.Sleep` of the given duration, then `os.Exit(0)` -/
  | exited : AgentManager → Int → Iteration
  /-- the operation succeeded: `time.Sleep` of the given duration, then loop -/
  | slept : AgentManager → Int → Iteration
deriving DecidableEq, Repr

/-- The duration slept at lines 607-622, for the manager `tm` as the operation
left it and the local variable `accessTokenRefreshedTime` as lines 561-565 left
it before the operation. -/
def AgentManager.sleepDuration (tm : AgentManager) (accessTokenRefreshedTime : Time) : Int :=
  let accessTokenRefreshedTime :=
    if accessTokenRefreshedTime.IsZero then tm.accessTokenFetchedTime
    else tm.accessTokenRefreshedTime
  let nextAccessTokenExpiresInTime :=
    accessTokenRefreshedTime.Add (wrap64 (tm.accessTokenTTL - 5 * Second))
  let accessTokenMaxTTLExpiresInTime :=
    tm.accessTokenFetchedTime.Add (wrap64 (tm.accessTokenMaxTTL - 5 * Second))
  if nextAccessTokenExpiresInTime.After accessTokenMaxTTLExpiresInTime then
    wrap64 (tm.accessTokenTTL
      - nextAccessTokenExpiresInTime.Sub accessTokenMaxTTLExpiresInTime)
  else
    wrap64 (tm.accessTokenTTL - 5 * Second)

/-- One iteration of the loop of `ManageTokenLifecycle`.  `now` is the value of
`time.Now()` at line 580, `opNow` its value inside the operation performed, and
`resp` the outcome of the service call of that operation. -/
def AgentManager.ManageTokenLifecycle (tm : AgentManager) (now opNow : Time)
    (resp : Option UniversalAuthResponse) : Iteration :=
  let accessTokenRefreshedTime := tm.accessTokenRefreshedTime
  let accessTokenRefreshedTime :=
    if accessTokenRefreshedTime.IsZero then tm.accessTokenFetchedTime
    else accessTokenRefreshedTime
  let result :=
    match tm.lifecycleAction now with
    | Action.Authenticate => tm.FetchNewAccessToken resp opNow
    | Action.Refresh => tm.RefreshAccessToken resp opNow
  match result with
  | OpResult.failed => Iteration.retry tm (30 * Second)
  | OpResult.aborted => Iteration.aborted
  | OpResult.ok tm1 =>
    if tm1.exitAfterAuth then Iteration.exited tm1 (25 * Second)
    else Iteration.slept tm1 (tm1.sleepDuration accessTokenRefreshedTime)

/-- The sleep between two operations as the spec words it, over the values the
manager holds after the operation: with `next_soft = max(refreshed_at,
fetched_at) + ttl - 5 s` and `hard = fetched_at + max_ttl - 5 s`, the sleep is
`ttl - (next_soft - hard)` if `next_soft > hard`, and `ttl - 5 s` otherwise. -/
def specSleepDuration (tm : AgentManager) : Int :=
  let next_soft :=
    max tm.accessTokenRefreshedTime.ns tm.accessTokenFetchedTime.ns
      + tm.accessTokenTTL - 5 * Second
  let hard := tm.accessTokenFetchedTime.ns + tm.accessTokenMaxTTL - 5 * Second
  if next_soft > hard then tm.accessTokenTTL - (next_soft - hard)
  else tm.accessTokenTTL - 5 * Second

/-- A manager holding token `tok` with the given ttl and max ttl in seconds. -/
def managerAt (tok : String) (ttl maxTTL : Int) (fetched refreshed : Time) : AgentManager :=
  { accessToken := tok, accessTokenTTL := ttl * Second, accessTokenMaxTTL := maxTTL * Second,
    accessTokenFetchedTime := fetched, accessTokenRefreshedTime := refreshed,
    exitAfterAuth := false }

/-- The instant `s` seconds after the zero instant. -/
def atSecond (s : Int) : Time := ⟨s * Second⟩

/-! ## Dynamic-secret lease registry -/

/-- Go constant `DYNAMIC_SECRET_PRUNE_EXPIRE_BUFFER`, in seconds. -/
def DYNAMIC_SECRET_PRUNE_EXPIRE_BUFFER : Int := -15

/-- Go `DynamicSecretLease`.  The values of `Data` are kept as text. -/
structure DynamicSecretLease where
  LeaseID : String
  ExpireAt : Time
  Environment : String
  SecretPath : String
  Slug : String
  ProjectSlug : String
  Data : List (String × String)
  TemplateIDs : List Int
deriving DecidableEq, Repr

/-- Go `DynamicSecretLeaseManager`; the mutex serialises the operations and is
not modelled. -/
structure DynamicSecretLeaseManager where
  leases : List DynamicSecretLease
deriving DecidableEq, Repr

/-- Go `NewDynamicSecretLeaseManager`. -/
def NewDynamicSecretLeaseManager : DynamicSecretLeaseManager := { leases := [] }

/-- Go `slices.DeleteFunc`: the elements for which `del` is false, in order. -/
def DeleteFunc {α : Type} (s : List α) (del : α → Bool) : List α :=
  s.filter (fun x => !del x)

/-- Go `slices.IndexFunc`: the first index whose element satisfies `f`, or `-1`. -/
def IndexFunc {α : Type} (s : List α) (f : α → Bool) : Int :=
  match s with
  | [] => -1
  | x :: xs => if f x then 0 else if IndexFunc xs f = -1 then -1 else IndexFunc xs f + 1

/-- The assignment `s[i].field = v` of Go, as the update of element `i` by `f`. -/
def updateAt {α : Type} (s : List α) (i : Nat) (f : α → α) : List α :=
  match s, i with
  | [], _ => []
  | x :: xs, 0 => f x :: xs
  | x :: xs, i + 1 => x :: updateAt xs i f

/-- Go `DynamicSecretLeaseManager.Prune`; `now` is the value of `time.Now()`. -/
def DynamicSecretLeaseManager.Prune (d : DynamicSecretLeaseManager) (now : Time) :
    DynamicSecretLeaseManager :=
  { leases := DeleteFunc d.leases (fun s =>
      now.After (s.ExpireAt.Add (DYNAMIC_SECRET_PRUNE_EXPIRE_BUFFER * Second))) }

/-- Go `DynamicSecretLeaseManager.Append`. -/
def DynamicSecretLeaseManager.Append (d : DynamicSecretLeaseManager)
    (lease : DynamicSecretLease) : DynamicSecretLeaseManager :=
  let index := IndexFunc d.leases (fun s =>
    lease.SecretPath == s.SecretPath && lease.Environment == s.Environment
      && lease.ProjectSlug == s.ProjectSlug && lease.Slug == s.Slug)
  if index ≠ -1 then
    { leases := updateAt d.leases index.toNat (fun e =>
        { e with TemplateIDs := e.TemplateIDs ++ lease.TemplateIDs }) }
  else
    { leases := d.leases ++ [lease] }

/-- Go `DynamicSecretLeaseManager.RegisterTemplate`. -/
def DynamicSecretLeaseManager.RegisterTemplate (d : DynamicSecretLeaseManager)
    (projectSlug environment secretPath slug : String) (templateId : Int) :
    DynamicSecretLeaseManager :=
  let index := IndexFunc d.leases (fun lease =>
    lease.SecretPath == secretPath && lease.Environment == environment
      && lease.ProjectSlug == projectSlug && lease.Slug == slug)
  if index ≠ -1 then
    { leases := updateAt d.leases index.toNat (fun e =>
        { e with TemplateIDs := e.TemplateIDs ++ [templateId] }) }
  else d

/-- Go `DynamicSecretLeaseManager.GetLease`: a copy of the first lease with the
given identity, `none` for the nil pointer. -/
def DynamicSecretLeaseManager.GetLease (d : DynamicSecretLeaseManager)
    (projectSlug environment secretPath slug : String) : Option DynamicSecretLease :=
  d.leases.find? (fun lease =>
    lease.SecretPath == secretPath && lease.Environment == environment
      && lease.ProjectSlug == projectSlug && lease.Slug == slug)

/-- The loop at lines 183-191 of `GetFirstExpiringLeaseTime`, from index `i` on,
with `firstExpiry` the value of the variable on entry. -/
def firstExpiryLoop (leases : List DynamicSecretLease) (i : Nat) (firstExpiry : Time) : Time :=
  match leases with
  | [] => firstExpiry
  | el :: rest =>
    let firstExpiry := if i = 0 then el.ExpireAt else firstExpiry
    let newLeaseTime := el.ExpireAt.Add (DYNAMIC_SECRET_PRUNE_EXPIRE_BUFFER * Second)
    firstExpiryLoop rest (i + 1)
      (if newLeaseTime.Before firstExpiry then newLeaseTime else firstExpiry)

/-- Go `DynamicSecretLeaseManager.GetFirstExpiringLeaseTime`. -/
def DynamicSecretLeaseManager.GetFirstExpiringLeaseTime (d : DynamicSecretLeaseManager)
    (_templateId : Int) : Time × Bool :=
  if d.leases.length = 0 then (Time.zero, false)
  else (firstExpiryLoop d.leases 0 Time.zero, true)

/-- The wait computed at lines 719-723 of `MonitorSecretChanges`; `now1` and
`now2` are the values of `time.Now()` at lines 721 and 722. -/
def waitTime (dynamicSecretLeases : DynamicSecretLeaseManager) (templateId : Int)
    (pollingInterval : Int) (now1 now2 : Time) : Int :=
  let (firstLeaseExpiry, isValid) :=
    dynamicSecretLeases.GetFirstExpiringLeaseTime templateId
  if isValid && decide (firstLeaseExpiry.Sub now1 < pollingInterval) then
    firstLeaseExpiry.Sub now2
  else pollingInterval

/-- Identity key of a lease: `(project_slug, environment, secret_path, slug)`. -/
def DynamicSecretLease.key (l : DynamicSecretLease) : String × String × String × String :=
  (l.ProjectSlug, l.Environment, l.SecretPath, l.Slug)

/-- A call of one of the mutating operations of the registry. -/
inductive RegistryOp where
  | Append : DynamicSecretLease → RegistryOp
  | RegisterTemplate : String → String → String → String → Int → RegistryOp
  | Prune : Time → RegistryOp
deriving DecidableEq, Repr

/-- The registry after one call. -/
def DynamicSecretLeaseManager.apply (d : DynamicSecretLeaseManager) :
    RegistryOp → DynamicSecretLeaseManager
  | RegistryOp.Append lease => d.Append lease
  | RegistryOp.RegisterTemplate projectSlug environment secretPath slug templateId =>
    d.RegisterTemplate projectSlug environment secretPath slug templateId
  | RegistryOp.Prune now => d.Prune now

/-- The registry after a sequence of calls, in order. -/
def DynamicSecretLeaseManager.run (d : DynamicSecretLeaseManager) (ops : List RegistryOp) :
    DynamicSecretLeaseManager :=
  ops.foldl DynamicSecretLeaseManager.apply d

/-- A lease with the given identity fields, expiry and template ids. -/
def leaseOf (project env path slug : String) (expireAt : Time) (ids : List Int) :
    DynamicSecretLease :=
  { LeaseID := "lease", ExpireAt := expireAt, Environment := env, SecretPath := path,
    Slug := slug, ProjectSlug := project, Data := [], TemplateIDs := ids }

/-! ## Template functions and the template worker -/

deriving instance DecidableEq for Except

/-- Answer of `util.GetPlainTextSecretsViaMachineIdentity`, as far as the agent
reads it. -/
structure SecretsResponse where
  Etag : String
  Secrets : List (String × String)
deriving DecidableEq, Repr

/-- Arguments of one call of `util.CreateDynamicSecretLease`. -/
structure LeaseRequest where
  accessToken : String
  projectSlug : String
  envSlug : String
  secretPath : String
  slug : String
  ttl : String
deriving DecidableEq, Repr

/-- Answer of `util.CreateDynamicSecretLease`: `res.Lease.Id`,
`res.Lease.ExpireAt` and `res.Data`. -/
structure LeaseResponse where
  LeaseId : String
  ExpireAt : Time
  Data : List (String × String)
deriving DecidableEq, Repr

/-- The functions of package `util` the template functions call, which are not
part of the source file: the secret service as it answers during one render. -/
structure Util where
  GetPlainTextSecretsViaMachineIdentity :
    String → String → String → String → Except String SecretsResponse
  ExpandSecrets : List (String × String) → List (String × String)
  CreateDynamicSecretLease : LeaseRequest → Except String LeaseResponse

/-- The closure returned by Go `secretTemplateFunction`, applied to
`projectID`, `envSlug` and `secretPath`.  The second component is the value of
`*currentEtag` after the call. -/
def secretTemplateFunction (util : Util) (accessToken existingEtag currentEtag : String)
    (projectID envSlug secretPath : String) :
    Except String (List (String × String)) × String :=
  match util.GetPlainTextSecretsViaMachineIdentity accessToken projectID envSlug secretPath with
  | Except.error err => (Except.error err, currentEtag)
  | Except.ok res =>
    let currentEtag := if existingEtag ≠ res.Etag then res.Etag else currentEtag
    (Except.ok (util.ExpandSecrets res.Secrets), currentEtag)

/-- What one call of the `dynamic_secret` template function does: the value it
returns, the registry it leaves, and the lease requests it sent to the
service. -/
structure DynamicSecretCall where
  value : Except String (List (String × String))
  manager : DynamicSecretLeaseManager
  requests : List LeaseRequest
deriving DecidableEq, Repr

/-- The closure returned by Go `dynamicSecretTemplateFunction`, applied to
`args`. -/
def dynamicSecretTemplateFunction (util : Util) (accessToken : String)
    (dynamicSecretManager : DynamicSecretLeaseManager) (templateId : Int)
    (args : List String) : DynamicSecretCall :=
  let argLength := args.length
  if argLength ≠ 4 ∧ argLength ≠ 5 then
    { value := Except.error "Invalid arguments found for dynamic-secret function",
      manager := dynamicSecretManager, requests := [] }
  else
    let projectSlug := args.getD 0 ""
    let envSlug := args.getD 1 ""
    let secretPath := args.getD 2 ""
    let slug := args.getD 3 ""
    let ttl := if argLength = 5 then args.getD 4 "" else ""
    match dynamicSecretManager.GetLease projectSlug envSlug secretPath slug with
    | some dynamicSecretData =>
      { value := Except.ok dynamicSecretData.Data,
        manager :=
          dynamicSecretManager.RegisterTemplate projectSlug envSlug secretPath slug templateId,
        requests := [] }
    | none =>
      let request : LeaseRequest :=
        { accessToken := accessToken, projectSlug := projectSlug, envSlug := envSlug,
          secretPath := secretPath, slug := slug, ttl := ttl }
      match util.CreateDynamicSecretLease request with
      | Except.error err =>
        { value := Except.error err, manager := dynamicSecretManager, requests := [request] }
      | Except.ok res =>
        { value := Except.ok res.Data,
          manager := dynamicSecretManager.Append
            { LeaseID := res.LeaseId, ExpireAt := res.ExpireAt, Environment := envSlug,
              SecretPath := secretPath, Slug := slug, ProjectSlug := projectSlug,
              Data := res.Data, TemplateIDs := [templateId] },
          requests := [request] }

/-- A call of one of the two functions bound in the template's `FuncMap` that
reach the service. -/
inductive TemplateCall where
  | secret : String → String → String → TemplateCall
  | dynamic_secret : List String → TemplateCall
deriving DecidableEq, Repr

/-- A template as the engine of `text/template` runs it: the calls of `secret`
and `dynamic_secret` its execution makes, in order, and what parsing and
executing it yield when none of these calls returns an error, the rendered text
or an error of the engine. -/
structure TemplateProgram where
  calls : List TemplateCall
  output : Except String String
deriving DecidableEq, Repr

/-- Execution of the calls of a template: it stops at the first call that
returns an error, which is the error of the render. -/
def executeCalls (util : Util) (templateId : Int) (accessToken existingEtag : String) :
    List TemplateCall → String → DynamicSecretLeaseManager →
      Option String × String × DynamicSecretLeaseManager
  | [], currentEtag, manager => (none, currentEtag, manager)
  | TemplateCall.secret projectID envSlug secretPath :: rest, currentEtag, manager =>
    match secretTemplateFunction util accessToken existingEtag currentEtag
        projectID envSlug secretPath with
    | (Except.error err, currentEtag) => (some err, currentEtag, manager)
    | (Except.ok _, currentEtag) =>
      executeCalls util templateId accessToken existingEtag rest currentEtag manager
  | TemplateCall.dynamic_secret args :: rest, currentEtag, manager =>
    let call := dynamicSecretTemplateFunction util accessToken manager templateId args
    match call.value with
    | Except.error err => (some err, currentEtag, call.manager)
    | Except.ok _ =>
      executeCalls util templateId accessToken existingEtag rest currentEtag call.manager

/-- Go `ProcessTemplate`, and `ProcessBase64Template`, which binds the same two
functions: the rendered text or the error, with the value of `*currentEtag` and
the registry after the render. -/
def ProcessTemplate (util : Util) (templateId : Int) (template : TemplateProgram)
    (accessToken existingEtag currentEtag : String)
    (dynamicSecretManager : DynamicSecretLeaseManager) :
    Except String String × String × DynamicSecretLeaseManager :=
  match executeCalls util templateId accessToken existingEtag template.calls currentEtag
      dynamicSecretManager with
  | (some err, currentEtag, manager) => (Except.error err, currentEtag, manager)
  | (none, currentEtag, manager) => (template.output, currentEtag, manager)

/-- Go `Template`: the fields a worker reads after start-up. -/
structure Template where
  SourcePath : String
  Base64TemplateContent : String
  DestinationPath : String
  Command : String
  Timeout : Int
deriving DecidableEq, Repr

/-- One call of `WriteTemplateToFile`: the text, the destination, and the error
of `WriteBytesToFile` if it returned one. -/
structure WriteCall where
  data : String
  outputPath : String
  err : Option String
deriving DecidableEq, Repr

/-- Go `AgentManager.WriteTemplateToFile`; `fsError` is the error `os.Create`
or `Write` returns inside `WriteBytesToFile`, if any.  The function logs and
returns nothing. -/
def WriteTemplateToFile (fsError : Option String) (bytes : String) (template : Template) :
    WriteCall :=
  { data := bytes, outputPath := template.DestinationPath, err := fsError }

/-- The local variables of `MonitorSecretChanges` that survive a tick. -/
structure WorkerState where
  existingEtag : String
  currentEtag : String
  firstRun : Bool
deriving DecidableEq, Repr

/-- The variables of `MonitorSecretChanges` at lines 668-670. -/
def WorkerState.init : WorkerState :=
  { existingEtag := "", currentEtag := "", firstRun := true }

/-- What a tick of a worker reads from its surroundings: the service, the
token `tm.GetToken()` returns, the error of the file system on a write, and the
values of `time.Now()` in `Prune` and at lines 721 and 722. -/
structure TickEnv where
  util : Util
  token : String
  fsError : Option String
  pruneNow : Time
  now1 : Time
  now2 : Time

/-- The outcome of one tick: the worker's variables, the registry, the calls of
`WriteTemplateToFile` and of `ExecuteCommandWithTimeout` made, and the sleep. -/
structure Tick where
  state : WorkerState
  dynamicSecretLeases : DynamicSecretLeaseManager
  writes : List WriteCall
  commands : List (String × Int)
  sleep : Int
deriving DecidableEq, Repr

/-- One iteration of the loop of Go `AgentManager.MonitorSecretChanges` (the
`default` case, lines 681-728). -/
def MonitorSecretChanges (secretTemplate : Template) (program : TemplateProgram)
    (templateId : Int) (pollingInterval : Int) (env : TickEnv) (w : WorkerState)
    (dynamicSecretLeases : DynamicSecretLeaseManager) : Tick :=
  let execTimeout := secretTemplate.Timeout
  let execCommand := secretTemplate.Command
  let dynamicSecretLeases := dynamicSecretLeases.Prune env.pruneNow
  let token := env.token
  if token ≠ "" then
    match ProcessTemplate env.util templateId program token w.existingEtag w.currentEtag
        dynamicSecretLeases with
    | (Except.error _, currentEtag, dynamicSecretLeases) =>
      { state := { w with currentEtag := currentEtag },
        dynamicSecretLeases := dynamicSecretLeases, writes := [], commands := [],
        sleep := waitTime dynamicSecretLeases templateId pollingInterval env.now1 env.now2 }
    | (Except.ok processedTemplate, currentEtag, dynamicSecretLeases) =>
      if w.existingEtag ≠ currentEtag ∨ w.firstRun = true then
        { state := { existingEtag := currentEtag, currentEtag := currentEtag,
                     firstRun := false },
          dynamicSecretLeases := dynamicSecretLeases,
          writes := [WriteTemplateToFile env.fsError processedTemplate secretTemplate],
          commands :=
            if ¬ w.firstRun = true ∧ execCommand ≠ "" then [(execCommand, execTimeout)]
            else [],
          sleep := waitTime dynamicSecretLeases templateId pollingInterval env.now1 env.now2 }
      else
        { state := { w with currentEtag := currentEtag },
          dynamicSecretLeases := dynamicSecretLeases, writes := [], commands := [],
          sleep := waitTime dynamicSecretLeases templateId pollingInterval env.now1 env.now2 }
  else
    { state := w, dynamicSecretLeases := dynamicSecretLeases, writes := [], commands := [],
      sleep := 3 * Second }

/-- A service whose secrets under `secretPath` carry the ETag `etag secretPath`
and which grants every lease request, until the instant `expireAt`. -/
def utilOf (etag : String → String) (expireAt : Time) : Util :=
  { GetPlainTextSecretsViaMachineIdentity := fun _ _ _ secretPath =>
      Except.ok { Etag := etag secretPath, Secrets := [] },
    ExpandSecrets := fun secrets => secrets,
    CreateDynamicSecretLease := fun request =>
      Except.ok { LeaseId := "lease", ExpireAt := expireAt,
                  Data := [("user", request.slug)] } }

/-- Surroundings of a tick at the instant `now` with token `tok`. -/
def envAt (util : Util) (fsError : Option String) (now : Time) : TickEnv :=
  { util := util, token := "tok", fsError := fsError, pruneNow := now, now1 := now, now2 := now }

/-- A template written to `/out` with the given post-render command. -/
def templateTo (command : String) : Template :=
  { SourcePath := "/in", Base64TemplateContent := "", DestinationPath := "/out",
    Command := command, Timeout := 0 }

/-- A template whose execution calls `secret` once, for the path `/a`. -/
def oneSecret : TemplateProgram := ⟨[TemplateCall.secret "p" "dev" "/a"], Except.ok "text"⟩
/-- A template whose execution calls `secret` twice, for the paths `/a` and `/b`. -/
def twoSecrets : TemplateProgram :=
  ⟨[TemplateCall.secret "p" "dev" "/a", TemplateCall.secret "p" "dev" "/b"], Except.ok "text"⟩

/-- The ETags of a service that answers `A` for the path `/a` and `B` for any other. -/
def etagAB : String → String := fun path => if path = "/a" then "A" else "B"

/-- The calls of `WriteTemplateToFile` of a tick that wrote the artifact: those
in which `WriteBytesToFile` returned no error. -/
def Tick.written (t : Tick) : List WriteCall :=
  t.writes.filter (fun call => call.err.isNone)

/-- The closure returned by Go `dynamicSecretTemplateFunction`, applied to
`args`, as it runs among the other workers.  `GetLease` (line 361) and then
`RegisterTemplate` (line 363), or the request to the service (line 367) and
`Append` (line 372), take the mutex of the registry each on its own; `others`
are the calls the other workers make on the registry between the lookup and the
update.  With `others = []` this is `dynamicSecretTemplateFunction`. -/
def dynamicSecretTemplateFunctionAmong (util : Util) (accessToken : String)
    (dynamicSecretManager : DynamicSecretLeaseManager) (templateId : Int)
    (args : List String) (others : List RegistryOp) : DynamicSecretCall :=
  let argLength := args.length
  if argLength ≠ 4 ∧ argLength ≠ 5 then
    { value := Except.error "Invalid arguments found for dynamic-secret function",
      manager := dynamicSecretManager, requests := [] }
  else
    let projectSlug := args.getD 0 ""
    let envSlug := args.getD 1 ""
    let secretPath := args.getD 2 ""
    let slug := args.getD 3 ""
    let ttl := if argLength = 5 then args.getD 4 "" else ""
    match dynamicSecretManager.GetLease projectSlug envSlug secretPath slug with
    | some dynamicSecretData =>
      { value := Except.ok dynamicSecretData.Data,
        manager :=
          (dynamicSecretManager.run others).RegisterTemplate projectSlug envSlug secretPath
            slug templateId,
        requests := [] }
    | none =>
      let request : LeaseRequest :=
        { accessToken := accessToken, projectSlug := projectSlug, envSlug := envSlug,
          secretPath := secretPath, slug := slug, ttl := ttl }
      match util.CreateDynamicSecretLease request with
      | Except.error err =>
        { value := Except.error err, manager := dynamicSecretManager.run others,
          requests := [request] }
      | Except.ok res =>
        { value := Except.ok res.Data,
          manager := (dynamicSecretManager.run others).Append
            { LeaseID := res.LeaseId, ExpireAt := res.ExpireAt, Environment := envSlug,
              SecretPath := secretPath, Slug := slug, ProjectSlug := projectSlug,
              Data := res.Data, TemplateIDs := [templateId] },
          requests := [request] }

/-! ## Theorems -/

/-! ### Machine arithmetic and the operations -/

/-- Truncation to 64 bits leaves a value of the int64 range as it is. -/
theorem wrap64_eq (x : Int) (h1 : minDuration ≤ x) (h2 : x ≤ maxDuration) : wrap64 x = x := by
  unfold wrap64
  unfold minDuration at h1
  unfold maxDuration at h2
  omega

/-- A truncated value is at least `minDuration`. -/
theorem wrap64_ge (x : Int) : minDuration ≤ wrap64 x := by
  unfold wrap64 minDuration
  omega

/-- A truncated value is at most `maxDuration`. -/
theorem wrap64_le (x : Int) : wrap64 x ≤ maxDuration := by
  unfold wrap64 maxDuration
  omega

/-- A successful `FetchNewAccessToken` records `now` as the fetch instant, leaves
the refresh instant as it was, and stores a ttl above 5 s. -/
theorem FetchNewAccessToken_ok (tm tm1 : AgentManager) (resp : Option UniversalAuthResponse)
    (now : Time) (h : tm.FetchNewAccessToken resp now = OpResult.ok tm1) :
    tm1.accessTokenFetchedTime = now
      ∧ tm1.accessTokenRefreshedTime = tm.accessTokenRefreshedTime
      ∧ 5 * Second < tm1.accessTokenTTL
      ∧ tm1.accessTokenTTL ≤ maxDuration ∧ tm1.accessTokenMaxTTL ≤ maxDuration := by
  unfold AgentManager.FetchNewAccessToken at h
  cases resp with
  | none => simp at h
  | some r =>
    simp only [PrintErrorMessageAndExit] at h
    split at h
    · simp at h
    · rename_i hgt
      simp only [OpResult.ok.injEq] at h
      subst h
      refine ⟨rfl, rfl, ?_, wrap64_le _, wrap64_le _⟩
      show 5 * Second < wrap64 (r.AccessTokenTTL * Second)
      omega

/-- A successful `RefreshAccessToken` records `now` as the refresh instant and
leaves the fetch instant as it was. -/
theorem RefreshAccessToken_ok (tm tm1 : AgentManager) (resp : Option UniversalAuthResponse)
    (now : Time) (h : tm.RefreshAccessToken resp now = OpResult.ok tm1) :
    tm1.accessTokenFetchedTime = tm.accessTokenFetchedTime
      ∧ tm1.accessTokenRefreshedTime = now
      ∧ tm1.accessTokenTTL ≤ maxDuration ∧ tm1.accessTokenMaxTTL ≤ maxDuration := by
  unfold AgentManager.RefreshAccessToken at h
  cases resp with
  | none => simp at h
  | some r =>
    simp only [OpResult.ok.injEq] at h
    subst h
    exact ⟨rfl, rfl, wrap64_le _, wrap64_le _⟩

/-- An iteration that ends in the regular sleep performed the operation chosen
by `lifecycleAction`, successfully, and slept `sleepDuration`. -/
theorem ManageTokenLifecycle_slept (tm tm1 : AgentManager) (now opNow : Time)
    (resp : Option UniversalAuthResponse) (sleep : Int)
    (h : tm.ManageTokenLifecycle now opNow resp = Iteration.slept tm1 sleep) :
    ((tm.lifecycleAction now = Action.Authenticate
          ∧ tm.FetchNewAccessToken resp opNow = OpResult.ok tm1)
        ∨ (tm.lifecycleAction now = Action.Refresh
          ∧ tm.RefreshAccessToken resp opNow = OpResult.ok tm1))
      ∧ sleep = tm1.sleepDuration
          (if tm.accessTokenRefreshedTime.IsZero then tm.accessTokenFetchedTime
            else tm.accessTokenRefreshedTime) := by
  unfold AgentManager.ManageTokenLifecycle at h
  simp only at h
  cases hact : tm.lifecycleAction now <;> rw [hact] at h <;> simp only at h
  · cases hop : tm.FetchNewAccessToken resp opNow <;> rw [hop] at h <;> simp only at h
    · simp at h
    · simp at h
    · split at h
      · simp at h
      · simp only [Iteration.slept.injEq] at h
        obtain ⟨h1, h2⟩ := h
        subst h1
        exact ⟨Or.inl ⟨rfl, rfl⟩, h2.symm⟩
  · cases hop : tm.RefreshAccessToken resp opNow <;> rw [hop] at h <;> simp only at h
    · simp at h
    · simp at h
    · split at h
      · simp at h
      · simp only [Iteration.slept.injEq] at h
        obtain ⟨h1, h2⟩ := h
        subst h1
        exact ⟨Or.inr ⟨rfl, rfl⟩, h2.symm⟩

/-- Value of `sleepDuration` when the soft expiry counted from `b` does not lie
beyond the ceiling. -/
theorem sleepDuration_normal (tm : AgentManager) (loc : Time) (b : Time)
    (hb : (if loc.IsZero then tm.accessTokenFetchedTime else tm.accessTokenRefreshedTime) = b)
    (httl : 0 ≤ tm.accessTokenTTL) (httl2 : tm.accessTokenTTL ≤ maxDuration)
    (hmax : minDuration + 5 * Second ≤ tm.accessTokenMaxTTL)
    (hmax2 : tm.accessTokenMaxTTL ≤ maxDuration)
    (hle : b.ns + tm.accessTokenTTL ≤ tm.accessTokenFetchedTime.ns + tm.accessTokenMaxTTL) :
    tm.sleepDuration loc = tm.accessTokenTTL - 5 * Second := by
  have h1 : wrap64 (tm.accessTokenTTL - 5 * Second) = tm.accessTokenTTL - 5 * Second := by
    apply wrap64_eq <;> (unfold Second minDuration maxDuration at *; omega)
  have h2 : wrap64 (tm.accessTokenMaxTTL - 5 * Second) = tm.accessTokenMaxTTL - 5 * Second := by
    apply wrap64_eq <;> (unfold Second minDuration maxDuration at *; omega)
  unfold AgentManager.sleepDuration
  simp only [hb, h1, h2, Time.After, Time.Add]
  rw [if_neg]
  simp only [decide_eq_true_eq, not_lt]
  omega

/-- Value of `sleepDuration` when the soft expiry counted from `b` lies beyond
the ceiling. -/
theorem sleepDuration_overshoot (tm : AgentManager) (loc : Time) (b : Time)
    (hb : (if loc.IsZero then tm.accessTokenFetchedTime else tm.accessTokenRefreshedTime) = b)
    (httl : 0 ≤ tm.accessTokenTTL) (httl2 : tm.accessTokenTTL ≤ maxDuration)
    (hmax : minDuration + 5 * Second ≤ tm.accessTokenMaxTTL)
    (hmax2 : tm.accessTokenMaxTTL ≤ maxDuration)
    (hgt : tm.accessTokenFetchedTime.ns + tm.accessTokenMaxTTL < b.ns + tm.accessTokenTTL)
    (hfit : b.ns + tm.accessTokenTTL - (tm.accessTokenFetchedTime.ns + tm.accessTokenMaxTTL)
      ≤ maxDuration) :
    tm.sleepDuration loc = tm.accessTokenFetchedTime.ns + tm.accessTokenMaxTTL - b.ns := by
  have h1 : wrap64 (tm.accessTokenTTL - 5 * Second) = tm.accessTokenTTL - 5 * Second := by
    apply wrap64_eq <;> (unfold Second minDuration maxDuration at *; omega)
  have h2 : wrap64 (tm.accessTokenMaxTTL - 5 * Second) = tm.accessTokenMaxTTL - 5 * Second := by
    apply wrap64_eq <;> (unfold Second minDuration maxDuration at *; omega)
  unfold AgentManager.sleepDuration
  simp only [hb, h1, h2, Time.After, Time.Add, Time.Sub]
  rw [if_pos (by simp only [decide_eq_true_eq]; omega)]
  rw [if_neg (by unfold Second minDuration maxDuration at *; omega)]
  rw [if_neg (by unfold Second minDuration maxDuration at *; omega)]
  rw [wrap64_eq] <;> (unfold Second minDuration maxDuration at *; omega)


/-! ### The lifecycle decision -/

/-- C1 (no overshoot), amended: in every state whose `max_ttl` is a duration
from which 5 s can be subtracted without leaving the int64 range (every
`max_ttl` of at least `minDuration + 5 s`, so every non-negative one), whenever
an iteration of the lifecycle loop chooses Refresh, the instant `now` of the
decision lies strictly before `fetched_at + max_ttl`.  This holds whether or not
`fetched_at` is set. -/
theorem no_overshoot (tm : AgentManager) (now : Time)
    (hlo : minDuration + 5 * Second ≤ tm.accessTokenMaxTTL)
    (hhi : tm.accessTokenMaxTTL ≤ maxDuration)
    (h : tm.lifecycleAction now = Action.Refresh) :
    now.ns < tm.accessTokenFetchedTime.ns + tm.accessTokenMaxTTL := by
  have hw : wrap64 (tm.accessTokenMaxTTL - 5 * Second) = tm.accessTokenMaxTTL - 5 * Second := by
    apply wrap64_eq <;> (unfold Second at *; omega)
  unfold AgentManager.lifecycleAction at h
  simp only [hw, Time.After, Time.Add] at h
  split at h
  · exact absurd h (by decide)
  · split at h
    · exact absurd h (by decide)
    · rename_i h2
      simp only [decide_eq_true_eq, not_lt] at h2
      unfold Second at h2
      omega

/-- Instance of the amended C1: with `fetched_at = 100 s` and `max_ttl = 30 s`
the loop still refreshes at `now = 125 s`, which lies before `130 s`. -/
theorem no_overshoot_witness :
    (managerAt "tok" 11 30 (atSecond 100) Time.zero).lifecycleAction (atSecond 125)
        = Action.Refresh
      ∧ (atSecond 125).ns
          < (managerAt "tok" 11 30 (atSecond 100) Time.zero).accessTokenFetchedTime.ns
            + (managerAt "tok" 11 30 (atSecond 100) Time.zero).accessTokenMaxTTL :=
  ⟨by decide,
    no_overshoot (managerAt "tok" 11 30 (atSecond 100) Time.zero) (atSecond 125)
      (by decide) (by decide) (by decide)⟩


/-- Counterexample to C1 as stated: a login answer with `max_ttl = 9223372037 s`
is stored wrapped to a negative duration, from which the subtraction of 5 s
wraps again, to about 292 years.  At `now = 105 s` the loop chooses Refresh,
although `now` does not lie before `fetched_at + max_ttl`. -/
theorem no_overshoot_counterexample :
    (NewAgentManager false).ManageTokenLifecycle (atSecond 100) (atSecond 100)
        (some ⟨"tok", 10, 9223372037⟩)
      = Iteration.slept
          ⟨"tok", 10 * Second, -9223372036709551616, atSecond 100, Time.zero, false⟩
          (5 * Second)
    ∧ (⟨"tok", 10 * Second, -9223372036709551616, atSecond 100, Time.zero, false⟩ :
        AgentManager).accessTokenFetchedTime.IsZero = false
    ∧ (⟨"tok", 10 * Second, -9223372036709551616, atSecond 100, Time.zero, false⟩ :
        AgentManager).lifecycleAction (atSecond 105) = Action.Refresh
    ∧ ¬ ((atSecond 105).ns < (atSecond 100).ns + -9223372036709551616) := by
  decide

/-! ### Sleeps between operations -/

/-- Counterexample to C2 as stated: after a login at `100 s` with `ttl = 11 s`,
`max_ttl = 16 s`, the loop sleeps 6 s and refreshes at `106 s`; the sleep it then
schedules is 10 s, longer than `ttl - 5 s = 6 s`, and it wakes at `116 s`, later
than `fetched_at + max_ttl - 5 s = 111 s`. -/
theorem ttl_discipline_counterexample :
    (NewAgentManager false).ManageTokenLifecycle (atSecond 100) (atSecond 100)
        (some ⟨"tok", 11, 16⟩)
      = Iteration.slept (managerAt "tok" 11 16 (atSecond 100) Time.zero) (6 * Second)
    ∧ (managerAt "tok" 11 16 (atSecond 100) Time.zero).lifecycleAction (atSecond 106)
      = Action.Refresh
    ∧ (managerAt "tok" 11 16 (atSecond 100) Time.zero).ManageTokenLifecycle
        (atSecond 106) (atSecond 106) (some ⟨"tok", 11, 16⟩)
      = Iteration.slept (managerAt "tok" 11 16 (atSecond 100) (atSecond 106)) (10 * Second)
    ∧ ¬ (10 * Second ≤ 11 * Second - 5 * Second)
    ∧ ¬ ((atSecond 106).ns + 10 * Second ≤ (atSecond 100).ns + 16 * Second - 5 * Second) := by
  decide

/-- C2 (TTL discipline), amended.  Take a successful operation performed at
`now` that leaves a `ttl > 5 s`: a Refresh, the initial Authenticate, or a
re-authentication whose response has `ttl ≤ max_ttl`.  Then the sleep is shorter
than `ttl` and the loop wakes no later than `fetched_at + max_ttl`.  When
`now + ttl - 5 s ≤ fetched_at + max_ttl - 5 s` the sleep is exactly `ttl - 5 s`
and the loop wakes no later than `fetched_at + max_ttl - 5 s`; otherwise the loop
wakes exactly at `fetched_at + max_ttl`.  The hypotheses `hmax` and `hfit` keep
the int64 arithmetic of the source from wrapping or saturating. -/
theorem ttl_discipline (tm tm1 : AgentManager) (now : Time)
    (resp : Option UniversalAuthResponse) (sleep : Int)
    (hstep : tm.ManageTokenLifecycle now now resp = Iteration.slept tm1 sleep)
    (httl : 5 * Second < tm1.accessTokenTTL)
    (hmax : minDuration + 5 * Second ≤ tm1.accessTokenMaxTTL)
    (hfit : now.ns + tm1.accessTokenTTL
      - (tm1.accessTokenFetchedTime.ns + tm1.accessTokenMaxTTL) ≤ maxDuration)
    (hkind : tm.lifecycleAction now = Action.Refresh
      ∨ (tm.accessTokenFetchedTime.IsZero = true ∧ tm.accessTokenRefreshedTime.IsZero = true)
      ∨ (tm1.accessTokenTTL ≤ tm1.accessTokenMaxTTL
          ∧ tm.accessTokenRefreshedTime.ns ≤ now.ns)) :
    sleep < tm1.accessTokenTTL
      ∧ now.ns + sleep ≤ tm1.accessTokenFetchedTime.ns + tm1.accessTokenMaxTTL
      ∧ (now.ns + tm1.accessTokenTTL - 5 * Second
            ≤ tm1.accessTokenFetchedTime.ns + tm1.accessTokenMaxTTL - 5 * Second →
          sleep = tm1.accessTokenTTL - 5 * Second
            ∧ now.ns + sleep
              ≤ tm1.accessTokenFetchedTime.ns + tm1.accessTokenMaxTTL - 5 * Second)
      ∧ (tm1.accessTokenFetchedTime.ns + tm1.accessTokenMaxTTL - 5 * Second
            < now.ns + tm1.accessTokenTTL - 5 * Second →
          now.ns + sleep = tm1.accessTokenFetchedTime.ns + tm1.accessTokenMaxTTL) := by
  obtain ⟨hop, hsleep⟩ := ManageTokenLifecycle_slept tm tm1 now now resp sleep hstep
  -- the instant `b` the soft expiry is counted from, and the value of the sleep
  have key : ∃ b : Time,
      (if (if tm.accessTokenRefreshedTime.IsZero then tm.accessTokenFetchedTime
            else tm.accessTokenRefreshedTime).IsZero
          then tm1.accessTokenFetchedTime else tm1.accessTokenRefreshedTime) = b
        ∧ tm1.accessTokenTTL ≤ maxDuration ∧ tm1.accessTokenMaxTTL ≤ maxDuration
        ∧ (b = now ∨ (b.ns ≤ now.ns ∧ tm1.accessTokenFetchedTime = now
            ∧ tm1.accessTokenTTL ≤ tm1.accessTokenMaxTTL)) := by
    rcases hop with ⟨hact, hf⟩ | ⟨hact, hr⟩
    · obtain ⟨hf1, hf2, _, hf4, hf5⟩ := FetchNewAccessToken_ok tm tm1 resp now hf
      by_cases hz : tm.accessTokenFetchedTime.IsZero = true
          ∧ tm.accessTokenRefreshedTime.IsZero = true
      · refine ⟨now, ?_, hf4, hf5, Or.inl rfl⟩
        rw [if_pos hz.2, if_pos hz.1, hf1]
      · rcases hkind with hk | hk | hk
        · rw [hact] at hk
          exact absurd hk (by decide)
        · exact absurd hk hz
        · refine ⟨tm.accessTokenRefreshedTime, ?_, hf4, hf5, Or.inr ⟨hk.2, hf1, hk.1⟩⟩
          by_cases hrz : tm.accessTokenRefreshedTime.IsZero = true
          · have hfz : ¬ tm.accessTokenFetchedTime.IsZero = true := fun h => hz ⟨h, hrz⟩
            rw [if_pos hrz, if_neg hfz, hf2]
          · rw [if_neg hrz, if_neg hrz, hf2]
    · obtain ⟨_, hr2, hr4, hr5⟩ := RefreshAccessToken_ok tm tm1 resp now hr
      refine ⟨now, ?_, hr4, hr5, Or.inl rfl⟩
      have hnz : ¬ (tm.accessTokenFetchedTime.IsZero = true
          ∧ tm.accessTokenRefreshedTime.IsZero = true) := by
        intro hz
        unfold AgentManager.lifecycleAction at hact
        simp [hz.1, hz.2] at hact
      by_cases hrz : tm.accessTokenRefreshedTime.IsZero = true
      · have hfz : ¬ tm.accessTokenFetchedTime.IsZero = true := fun h => hnz ⟨h, hrz⟩
        rw [if_pos hrz, if_neg hfz, hr2]
      · rw [if_neg hrz, if_neg hrz, hr2]
  obtain ⟨b, hb, httl2, hmax2, hcase⟩ := key
  by_cases hle : b.ns + tm1.accessTokenTTL
      ≤ tm1.accessTokenFetchedTime.ns + tm1.accessTokenMaxTTL
  · have hs := sleepDuration_normal tm1 _ b hb (by unfold Second at httl; omega) httl2 hmax hmax2 hle
    rw [← hsleep] at hs
    rcases hcase with hbn | ⟨hbn, hfn, hlt⟩
    · subst hbn
      refine ⟨by unfold Second at *; omega, by unfold Second at *; omega, ?_, ?_⟩
      · intro _
        exact ⟨hs, by omega⟩
      · intro h
        omega
    · rw [hfn] at hle ⊢
      refine ⟨by unfold Second at *; omega, by unfold Second at *; omega, ?_, ?_⟩
      · intro _
        exact ⟨hs, by omega⟩
      · intro h
        omega
  · rcases hcase with hbn | ⟨hbn, hfn, hlt⟩
    · subst hbn
      have hs := sleepDuration_overshoot tm1 _ b hb (by unfold Second at httl; omega) httl2 hmax hmax2 (by omega) hfit
      rw [← hsleep] at hs
      refine ⟨by omega, by omega, ?_, ?_⟩
      · intro h
        omega
      · intro _
        omega
    · rw [hfn] at hle
      omega


/-- Instance of the amended C2 at the refresh of the counterexample
(`ttl = 11 s`, `max_ttl = 16 s`, login at `100 s`, refresh at `106 s`, sleep
10 s). -/
theorem ttl_discipline_witness :
    10 * Second < (managerAt "tok" 11 16 (atSecond 100) (atSecond 106)).accessTokenTTL
      ∧ (atSecond 106).ns + 10 * Second
        ≤ (managerAt "tok" 11 16 (atSecond 100) (atSecond 106)).accessTokenFetchedTime.ns
          + (managerAt "tok" 11 16 (atSecond 100) (atSecond 106)).accessTokenMaxTTL
      ∧ ((atSecond 106).ns
            + (managerAt "tok" 11 16 (atSecond 100) (atSecond 106)).accessTokenTTL - 5 * Second
          ≤ (managerAt "tok" 11 16 (atSecond 100) (atSecond 106)).accessTokenFetchedTime.ns
            + (managerAt "tok" 11 16 (atSecond 100) (atSecond 106)).accessTokenMaxTTL
            - 5 * Second →
          10 * Second
              = (managerAt "tok" 11 16 (atSecond 100) (atSecond 106)).accessTokenTTL - 5 * Second
            ∧ (atSecond 106).ns + 10 * Second
              ≤ (managerAt "tok" 11 16 (atSecond 100) (atSecond 106)).accessTokenFetchedTime.ns
                + (managerAt "tok" 11 16 (atSecond 100) (atSecond 106)).accessTokenMaxTTL
                - 5 * Second)
      ∧ ((managerAt "tok" 11 16 (atSecond 100) (atSecond 106)).accessTokenFetchedTime.ns
            + (managerAt "tok" 11 16 (atSecond 100) (atSecond 106)).accessTokenMaxTTL
            - 5 * Second
          < (atSecond 106).ns
            + (managerAt "tok" 11 16 (atSecond 100) (atSecond 106)).accessTokenTTL - 5 * Second →
          (atSecond 106).ns + 10 * Second
            = (managerAt "tok" 11 16 (atSecond 100) (atSecond 106)).accessTokenFetchedTime.ns
              + (managerAt "tok" 11 16 (atSecond 100) (atSecond 106)).accessTokenMaxTTL) :=
  ttl_discipline (managerAt "tok" 11 16 (atSecond 100) Time.zero)
    (managerAt "tok" 11 16 (atSecond 100) (atSecond 106)) (atSecond 106)
    (some ⟨"tok", 11, 16⟩) (10 * Second) (by decide) (by decide) (by decide) (by decide)
    (Or.inl (by decide))

/-- C3 (sleep formula) fails after a re-authentication.  A login at `100 s` with
`ttl = 30 s`, `max_ttl = 20 s` is followed by a sleep of 20 s, as the formula of
the spec prescribes, and, with no refresh in between, by a re-authentication at
`120 s`.  After that re-authentication, with the same answer of the service, the
loop sleeps 25 s, where the formula gives 20 s. -/
theorem sleep_formula_counterexample :
    (NewAgentManager false).ManageTokenLifecycle (atSecond 100) (atSecond 100)
        (some ⟨"tok", 30, 20⟩)
      = Iteration.slept (managerAt "tok" 30 20 (atSecond 100) Time.zero) (20 * Second)
    ∧ (managerAt "tok" 30 20 (atSecond 100) Time.zero).lifecycleAction (atSecond 120)
      = Action.Authenticate
    ∧ (managerAt "tok" 30 20 (atSecond 100) Time.zero).ManageTokenLifecycle
        (atSecond 120) (atSecond 120) (some ⟨"tok", 30, 20⟩)
      = Iteration.slept (managerAt "tok" 30 20 (atSecond 120) Time.zero) (25 * Second)
    ∧ specSleepDuration (managerAt "tok" 30 20 (atSecond 120) Time.zero) = 20 * Second
    ∧ (25 * Second : Int) ≠ 20 * Second := by
  decide

/-- Where the sleep follows the formula of the spec (`specSleepDuration`): after
a successful Refresh, after the initial Authenticate, and after a
re-authentication whose response has `ttl ≤ max_ttl`.  `hpast` says that the
stored instants are earlier readings of the clock; `httl`, `hmax` and `hfit`
keep the int64 arithmetic of the source from wrapping or saturating. -/
theorem sleep_formula (tm tm1 : AgentManager) (now opNow : Time)
    (resp : Option UniversalAuthResponse) (sleep : Int)
    (hstep : tm.ManageTokenLifecycle now opNow resp = Iteration.slept tm1 sleep)
    (httl : 0 ≤ tm1.accessTokenTTL)
    (hmax : minDuration + 5 * Second ≤ tm1.accessTokenMaxTTL)
    (hfit : opNow.ns + tm1.accessTokenTTL
      - (tm1.accessTokenFetchedTime.ns + tm1.accessTokenMaxTTL) ≤ maxDuration)
    (hpast : tm.accessTokenFetchedTime.ns ≤ opNow.ns
      ∧ tm.accessTokenRefreshedTime.ns ≤ opNow.ns)
    (hkind : tm.lifecycleAction now = Action.Refresh
      ∨ (tm.accessTokenFetchedTime.IsZero = true ∧ tm.accessTokenRefreshedTime.IsZero = true)
      ∨ tm1.accessTokenTTL ≤ tm1.accessTokenMaxTTL) :
    sleep = specSleepDuration tm1 := by
  obtain ⟨hop, hsleep⟩ := ManageTokenLifecycle_slept tm tm1 now opNow resp sleep hstep
  have key : ∃ b : Time,
      (if (if tm.accessTokenRefreshedTime.IsZero then tm.accessTokenFetchedTime
            else tm.accessTokenRefreshedTime).IsZero
          then tm1.accessTokenFetchedTime else tm1.accessTokenRefreshedTime) = b
        ∧ tm1.accessTokenTTL ≤ maxDuration ∧ tm1.accessTokenMaxTTL ≤ maxDuration
        ∧ ((b = opNow
            ∧ max tm1.accessTokenRefreshedTime.ns tm1.accessTokenFetchedTime.ns = opNow.ns)
          ∨ (b.ns ≤ opNow.ns ∧ tm1.accessTokenFetchedTime = opNow
            ∧ tm1.accessTokenRefreshedTime.ns ≤ opNow.ns
            ∧ tm1.accessTokenTTL ≤ tm1.accessTokenMaxTTL)) := by
    rcases hop with ⟨hact, hf⟩ | ⟨hact, hr⟩
    · obtain ⟨hf1, hf2, _, hf4, hf5⟩ := FetchNewAccessToken_ok tm tm1 resp opNow hf
      by_cases hz : tm.accessTokenFetchedTime.IsZero = true
          ∧ tm.accessTokenRefreshedTime.IsZero = true
      · refine ⟨opNow, ?_, hf4, hf5, Or.inl ⟨rfl, ?_⟩⟩
        · rw [if_pos hz.2, if_pos hz.1, hf1]
        · rw [hf1, hf2]
          exact max_eq_right hpast.2
      · rcases hkind with hk | hk | hk
        · rw [hact] at hk
          exact absurd hk (by decide)
        · exact absurd hk hz
        · refine ⟨tm.accessTokenRefreshedTime, ?_, hf4, hf5,
            Or.inr ⟨hpast.2, hf1, by rw [hf2]; exact hpast.2, hk⟩⟩
          by_cases hrz : tm.accessTokenRefreshedTime.IsZero = true
          · have hfz : ¬ tm.accessTokenFetchedTime.IsZero = true := fun h => hz ⟨h, hrz⟩
            rw [if_pos hrz, if_neg hfz, hf2]
          · rw [if_neg hrz, if_neg hrz, hf2]
    · obtain ⟨hr1, hr2, hr4, hr5⟩ := RefreshAccessToken_ok tm tm1 resp opNow hr
      refine ⟨opNow, ?_, hr4, hr5, Or.inl ⟨rfl, ?_⟩⟩
      · have hnz : ¬ (tm.accessTokenFetchedTime.IsZero = true
            ∧ tm.accessTokenRefreshedTime.IsZero = true) := by
          intro hz
          unfold AgentManager.lifecycleAction at hact
          simp [hz.1, hz.2] at hact
        by_cases hrz : tm.accessTokenRefreshedTime.IsZero = true
        · have hfz : ¬ tm.accessTokenFetchedTime.IsZero = true := fun h => hnz ⟨h, hrz⟩
          rw [if_pos hrz, if_neg hfz, hr2]
        · rw [if_neg hrz, if_neg hrz, hr2]
      · rw [hr1, hr2]
        exact max_eq_left hpast.1
  obtain ⟨b, hb, httl2, hmax2, hcase⟩ := key
  rw [hsleep]
  unfold specSleepDuration
  rcases hcase with ⟨hbn, hmx⟩ | ⟨hbn, hfn, hrn, hlt⟩
  · subst hbn
    simp only [hmx]
    by_cases hle : b.ns + tm1.accessTokenTTL
        ≤ tm1.accessTokenFetchedTime.ns + tm1.accessTokenMaxTTL
    · rw [sleepDuration_normal tm1 _ b hb httl httl2 hmax hmax2 hle, if_neg (by omega)]
    · rw [sleepDuration_overshoot tm1 _ b hb httl httl2 hmax hmax2 (by omega) hfit,
        if_pos (by omega)]
      omega
  · have hmx : max tm1.accessTokenRefreshedTime.ns tm1.accessTokenFetchedTime.ns
        = opNow.ns := by
      rw [hfn]
      exact max_eq_right hrn
    simp only [hmx]
    rw [sleepDuration_normal tm1 _ b hb httl httl2 hmax hmax2 (by rw [hfn]; omega),
      if_neg (by rw [hfn]; omega)]

/-- Instance of `sleep_formula`: the refresh at `106 s` of a token fetched at
`100 s` with `ttl = 11 s`, `max_ttl = 16 s` is followed by a sleep of 10 s. -/
theorem sleep_formula_witness :
    (10 * Second : Int)
      = specSleepDuration (managerAt "tok" 11 16 (atSecond 100) (atSecond 106)) :=
  sleep_formula (managerAt "tok" 11 16 (atSecond 100) Time.zero)
    (managerAt "tok" 11 16 (atSecond 100) (atSecond 106)) (atSecond 106) (atSecond 106)
    (some ⟨"tok", 11, 16⟩) (10 * Second) (by decide) (by decide) (by decide) (by decide)
    (by decide) (Or.inl (by decide))


/-- Counterexample to C4 as stated, with `t0 = 100 s`: after the login at `t0`
and the first refresh at `t0 + 6 s` the loop sleeps 6 s, so its next action is at
`t0 + 12 s`, not at `t0 + 25 s`. -/
theorem S5_counterexample :
    (NewAgentManager false).ManageTokenLifecycle (atSecond 100) (atSecond 100)
        (some ⟨"tok", 11, 30⟩)
      = Iteration.slept (managerAt "tok" 11 30 (atSecond 100) Time.zero) (6 * Second)
    ∧ (managerAt "tok" 11 30 (atSecond 100) Time.zero).lifecycleAction (atSecond 106)
      = Action.Refresh
    ∧ (managerAt "tok" 11 30 (atSecond 100) Time.zero).ManageTokenLifecycle
        (atSecond 106) (atSecond 106) (some ⟨"tok", 11, 30⟩)
      = Iteration.slept (managerAt "tok" 11 30 (atSecond 100) (atSecond 106)) (6 * Second)
    ∧ (atSecond 106).Add (6 * Second) = atSecond 112
    ∧ (atSecond 106).Add (6 * Second) ≠ atSecond 125 := by
  decide

/-- C4 (scenario S5), amended.  With `ttl = 11 s`, `max_ttl = 30 s` and a login
at a non-zero instant `t0`, the loop sleeps 6 s, refreshes at `t0 + 6 s`, sleeps
6 s again, and its next action, at `t0 + 12 s`, is again a refresh. -/
theorem S5_next_action (t0 : Time) (tok tok2 : String) (h0 : t0.IsZero = false) :
    (NewAgentManager false).ManageTokenLifecycle t0 t0 (some ⟨tok, 11, 30⟩)
      = Iteration.slept (managerAt tok 11 30 t0 Time.zero) (6 * Second)
    ∧ (managerAt tok 11 30 t0 Time.zero).lifecycleAction (t0.Add (6 * Second))
      = Action.Refresh
    ∧ (managerAt tok 11 30 t0 Time.zero).ManageTokenLifecycle
        (t0.Add (6 * Second)) (t0.Add (6 * Second)) (some ⟨tok2, 11, 30⟩)
      = Iteration.slept (managerAt tok2 11 30 t0 (t0.Add (6 * Second))) (6 * Second)
    ∧ (t0.Add (6 * Second)).Add (6 * Second) = t0.Add (12 * Second)
    ∧ (managerAt tok2 11 30 t0 (t0.Add (6 * Second))).lifecycleAction (t0.Add (12 * Second))
      = Action.Refresh := by
  have hz : ¬ t0.ns = 0 := by
    simpa [Time.IsZero] using h0
  refine ⟨?_, ?_, ?_, ?_, ?_⟩
  · simp [AgentManager.ManageTokenLifecycle, AgentManager.lifecycleAction, NewAgentManager,
      AgentManager.FetchNewAccessToken, AgentManager.SetToken, AgentManager.sleepDuration,
      managerAt, Time.IsZero, Time.zero, Time.After, Time.Add, Time.Sub,
      PrintErrorMessageAndExit, Second, wrap64]
  · simp [AgentManager.lifecycleAction, managerAt, Time.IsZero, Time.zero, Time.After,
      Time.Add, Second, wrap64, hz]
  · simp [AgentManager.ManageTokenLifecycle, AgentManager.lifecycleAction,
      AgentManager.RefreshAccessToken, AgentManager.SetToken, AgentManager.sleepDuration,
      managerAt, Time.IsZero, Time.zero, Time.After, Time.Add, Time.Sub,
      Second, wrap64, hz]
    intro h
    omega
  · simp [Time.Add, Second]
    omega
  · simp [AgentManager.lifecycleAction, managerAt, Time.IsZero, Time.zero, Time.After,
      Time.Add, Second, wrap64, hz]


/-- Instance of the amended C4 at `t0 = 100 s`. -/
theorem S5_next_action_witness :
    (NewAgentManager false).ManageTokenLifecycle (atSecond 100) (atSecond 100)
        (some ⟨"a", 11, 30⟩)
      = Iteration.slept (managerAt "a" 11 30 (atSecond 100) Time.zero) (6 * Second)
    ∧ (managerAt "a" 11 30 (atSecond 100) Time.zero).lifecycleAction
        ((atSecond 100).Add (6 * Second))
      = Action.Refresh
    ∧ (managerAt "a" 11 30 (atSecond 100) Time.zero).ManageTokenLifecycle
        ((atSecond 100).Add (6 * Second)) ((atSecond 100).Add (6 * Second))
        (some ⟨"b", 11, 30⟩)
      = Iteration.slept (managerAt "b" 11 30 (atSecond 100) ((atSecond 100).Add (6 * Second)))
          (6 * Second)
    ∧ ((atSecond 100).Add (6 * Second)).Add (6 * Second) = (atSecond 100).Add (12 * Second)
    ∧ (managerAt "b" 11 30 (atSecond 100) ((atSecond 100).Add (6 * Second))).lifecycleAction
        ((atSecond 100).Add (12 * Second))
      = Action.Refresh :=
  S5_next_action (atSecond 100) "a" "b" (by decide)

/-- Counterexample to C5 as stated: with `fetched_at = 100 s` and
`max_ttl = 30 s`, at the instant `now = 125 s = fetched_at + max_ttl - 5 s` the
loop refreshes. -/
theorem lifecycle_decision_counterexample :
    (managerAt "tok" 11 30 (atSecond 100) Time.zero).lifecycleAction (atSecond 125)
        = Action.Refresh
      ∧ (managerAt "tok" 11 30 (atSecond 100) Time.zero).accessTokenFetchedTime.ns
          + (managerAt "tok" 11 30 (atSecond 100) Time.zero).accessTokenMaxTTL - 5 * Second
        ≤ (atSecond 125).ns := by
  decide

/-- C5 (lifecycle state decision), amended.  An iteration authenticates when
both `fetched_at` and `refreshed_at` are zero; otherwise it refreshes exactly
when `now ≤ fetched_at + max_ttl - 5 s` and authenticates exactly when
`now > fetched_at + max_ttl - 5 s`.  `hlo` and `hhi` say that `max_ttl - 5 s`
does not leave the int64 range. -/
theorem lifecycle_decision (tm : AgentManager) (now : Time)
    (hlo : minDuration + 5 * Second ≤ tm.accessTokenMaxTTL)
    (hhi : tm.accessTokenMaxTTL ≤ maxDuration) :
    ((tm.accessTokenFetchedTime.IsZero = true ∧ tm.accessTokenRefreshedTime.IsZero = true) →
        tm.lifecycleAction now = Action.Authenticate)
      ∧ (¬ (tm.accessTokenFetchedTime.IsZero = true
            ∧ tm.accessTokenRefreshedTime.IsZero = true) →
          (tm.lifecycleAction now = Action.Refresh
              ↔ now.ns ≤ tm.accessTokenFetchedTime.ns + tm.accessTokenMaxTTL - 5 * Second)
            ∧ (tm.lifecycleAction now = Action.Authenticate
              ↔ tm.accessTokenFetchedTime.ns + tm.accessTokenMaxTTL - 5 * Second < now.ns)) := by
  have hw : wrap64 (tm.accessTokenMaxTTL - 5 * Second) = tm.accessTokenMaxTTL - 5 * Second := by
    apply wrap64_eq <;> (unfold Second at *; omega)
  unfold AgentManager.lifecycleAction
  simp only [hw, Time.After, Time.Add]
  constructor
  · intro hz
    simp [hz.1, hz.2]
  · intro hz
    have hb : (tm.accessTokenFetchedTime.IsZero && tm.accessTokenRefreshedTime.IsZero) = false := by
      cases h1 : tm.accessTokenFetchedTime.IsZero <;>
        cases h2 : tm.accessTokenRefreshedTime.IsZero <;> simp_all
    rw [hb]
    by_cases hlt : tm.accessTokenFetchedTime.ns + (tm.accessTokenMaxTTL - 5 * Second) < now.ns
    · simp [hlt]
      omega
    · simp [hlt]
      omega

/-- Instance of the amended C5 at `fetched_at = 100 s`, `max_ttl = 30 s`,
`now = 125 s`. -/
theorem lifecycle_decision_witness :
    (((managerAt "tok" 11 30 (atSecond 100) Time.zero).accessTokenFetchedTime.IsZero = true
          ∧ (managerAt "tok" 11 30 (atSecond 100) Time.zero).accessTokenRefreshedTime.IsZero
            = true) →
        (managerAt "tok" 11 30 (atSecond 100) Time.zero).lifecycleAction (atSecond 125)
          = Action.Authenticate)
      ∧ (¬ ((managerAt "tok" 11 30 (atSecond 100) Time.zero).accessTokenFetchedTime.IsZero = true
            ∧ (managerAt "tok" 11 30 (atSecond 100) Time.zero).accessTokenRefreshedTime.IsZero
              = true) →
          ((managerAt "tok" 11 30 (atSecond 100) Time.zero).lifecycleAction (atSecond 125)
                = Action.Refresh
              ↔ (atSecond 125).ns
                ≤ (managerAt "tok" 11 30 (atSecond 100) Time.zero).accessTokenFetchedTime.ns
                  + (managerAt "tok" 11 30 (atSecond 100) Time.zero).accessTokenMaxTTL
                  - 5 * Second)
            ∧ ((managerAt "tok" 11 30 (atSecond 100) Time.zero).lifecycleAction (atSecond 125)
                = Action.Authenticate
              ↔ (managerAt "tok" 11 30 (atSecond 100) Time.zero).accessTokenFetchedTime.ns
                  + (managerAt "tok" 11 30 (atSecond 100) Time.zero).accessTokenMaxTTL
                  - 5 * Second
                < (atSecond 125).ns)) :=
  lifecycle_decision (managerAt "tok" 11 30 (atSecond 100) Time.zero) (atSecond 125)
    (by decide) (by decide)

/-- C6 (token ttl invariant) fails on the refresh path.  After a login with
`ttl = 10 s` the loop refreshes at `105 s`; a refresh response with `ttl = 3 s` is
stored as it is, and the loop schedules a sleep of `-2 s`.  The same response to
a login terminates the process. -/
theorem refresh_stores_short_ttl :
    (NewAgentManager false).ManageTokenLifecycle (atSecond 100) (atSecond 100)
        (some ⟨"tok", 10, 100⟩)
      = Iteration.slept (managerAt "tok" 10 100 (atSecond 100) Time.zero) (5 * Second)
    ∧ (managerAt "tok" 10 100 (atSecond 100) Time.zero).lifecycleAction (atSecond 105)
      = Action.Refresh
    ∧ (managerAt "tok" 10 100 (atSecond 100) Time.zero).ManageTokenLifecycle
        (atSecond 105) (atSecond 105) (some ⟨"tok2", 3, 100⟩)
      = Iteration.slept (managerAt "tok2" 3 100 (atSecond 100) (atSecond 105)) (-2 * Second)
    ∧ (managerAt "tok2" 3 100 (atSecond 100) (atSecond 105)).accessTokenTTL = 3 * Second
    ∧ ¬ (5 * Second < (managerAt "tok2" 3 100 (atSecond 100) (atSecond 105)).accessTokenTTL)
    ∧ (NewAgentManager false).FetchNewAccessToken (some ⟨"tok2", 3, 100⟩) (atSecond 100)
      = OpResult.aborted := by
  decide

/-! ### The lease registry -/

/-- The result of `IndexFunc` is `-1` or a non-negative index. -/
theorem IndexFunc_range {α : Type} (s : List α) (f : α → Bool) :
    0 ≤ IndexFunc s f ∨ IndexFunc s f = -1 := by
  induction s with
  | nil => right; simp [IndexFunc]
  | cons b bs ihb =>
    by_cases hfb : f b = true
    · left; simp [IndexFunc, hfb]
    · by_cases hb : IndexFunc bs f = -1
      · right; simp [IndexFunc, hfb, hb]
      · left
        simp only [IndexFunc, hfb, hb, if_false]
        omega

/-- When `IndexFunc` returns `-1`, no element satisfies the predicate. -/
theorem IndexFunc_eq_neg_one {α : Type} (s : List α) (f : α → Bool)
    (h : IndexFunc s f = -1) : ∀ x ∈ s, f x = false := by
  induction s with
  | nil => intro x hx; cases hx
  | cons a as ih =>
    by_cases hfa : f a = true
    · simp [IndexFunc, hfa] at h
    · by_cases hneg : IndexFunc as f = -1
      · intro x hx
        rcases List.mem_cons.mp hx with rfl | hx
        · simpa using hfa
        · exact ih hneg x hx
      · simp only [IndexFunc, hfa, hneg, if_false] at h
        have := IndexFunc_range as f
        omega

/-- When `IndexFunc` does not return `-1`, the list splits at the first element
that satisfies the predicate, and an update at the returned index rewrites that
element only. -/
theorem IndexFunc_found {α : Type} (s : List α) (f : α → Bool) (g : α → α)
    (h : IndexFunc s f ≠ -1) :
    ∃ pre e post, s = pre ++ e :: post ∧ f e = true ∧ (∀ x ∈ pre, f x = false)
      ∧ updateAt s (IndexFunc s f).toNat g = pre ++ g e :: post := by
  induction s with
  | nil => exact absurd (by simp [IndexFunc]) h
  | cons a as ih =>
    by_cases hfa : f a = true
    · refine ⟨[], a, as, rfl, hfa, ?_, ?_⟩
      · intro x hx; cases hx
      · simp [IndexFunc, hfa, updateAt]
    · have hne : IndexFunc as f ≠ -1 := by
        intro hneg
        apply h
        simp [IndexFunc, hfa, hneg]
      obtain ⟨pre, e, post, hs, hfe, hpre, hup⟩ := ih hne
      refine ⟨a :: pre, e, post, by rw [hs]; rfl, hfe, ?_, ?_⟩
      · intro x hx
        rcases List.mem_cons.mp hx with rfl | hx
        · simpa using hfa
        · exact hpre x hx
      · have hnn2 := IndexFunc_range as f
        have hidx : IndexFunc (a :: as) f = IndexFunc as f + 1 := by
          simp [IndexFunc, hfa, hne]
        have htn : (IndexFunc as f + 1).toNat = (IndexFunc as f).toNat + 1 := by
          omega
        rw [hidx, htn]
        simp only [updateAt, List.cons_append, hup]

/-- The comparison made by `Append` holds exactly of leases with equal identity keys. -/
theorem sameIdentity_iff (a b : DynamicSecretLease) :
    (a.SecretPath == b.SecretPath && a.Environment == b.Environment
      && a.ProjectSlug == b.ProjectSlug && a.Slug == b.Slug) = true ↔ a.key = b.key := by
  simp only [DynamicSecretLease.key, Bool.and_eq_true, beq_iff_eq, Prod.mk.injEq]
  tauto

/-- `Append` of a lease whose identity is registered rewrites the first lease of
that identity, appending the template ids. -/
theorem Append_present (d : DynamicSecretLeaseManager) (lease : DynamicSecretLease)
    (h : ∃ e ∈ d.leases, e.key = lease.key) :
    ∃ pre e post, d.leases = pre ++ e :: post ∧ e.key = lease.key
      ∧ (∀ x ∈ pre, x.key ≠ lease.key)
      ∧ (d.Append lease).leases
        = pre ++ { e with TemplateIDs := e.TemplateIDs ++ lease.TemplateIDs } :: post := by
  have hne : IndexFunc d.leases (fun s =>
      lease.SecretPath == s.SecretPath && lease.Environment == s.Environment
        && lease.ProjectSlug == s.ProjectSlug && lease.Slug == s.Slug) ≠ -1 := by
    intro hneg
    obtain ⟨e, he, hk⟩ := h
    have := IndexFunc_eq_neg_one _ _ hneg e he
    have h2 := (sameIdentity_iff lease e).mpr hk.symm
    simp only [h2] at this
    exact absurd this (by decide)
  obtain ⟨pre, e, post, hs, hfe, hpre, hup⟩ := IndexFunc_found d.leases _
    (fun e => { e with TemplateIDs := e.TemplateIDs ++ lease.TemplateIDs }) hne
  refine ⟨pre, e, post, hs, ((sameIdentity_iff lease e).mp hfe).symm, ?_, ?_⟩
  · intro x hx hk
    have h1 := hpre x hx
    have h2 := (sameIdentity_iff lease x).mpr hk.symm
    simp only [h2] at h1
    exact absurd h1 (by decide)
  · unfold DynamicSecretLeaseManager.Append
    simp only [hne, ne_eq, not_false_eq_true, if_true]
    exact hup

/-- `Append` keeps the identity keys pairwise distinct. -/
theorem Append_keys_nodup (d : DynamicSecretLeaseManager) (lease : DynamicSecretLease)
    (h : (d.leases.map DynamicSecretLease.key).Nodup) :
    ((d.Append lease).leases.map DynamicSecretLease.key).Nodup := by
  by_cases hp : ∃ e ∈ d.leases, e.key = lease.key
  · obtain ⟨pre, e, post, hs, _, _, hup⟩ := Append_present d lease hp
    rw [hup]
    rw [hs] at h
    simpa [DynamicSecretLease.key] using h
  · have hne : IndexFunc d.leases (fun s =>
        lease.SecretPath == s.SecretPath && lease.Environment == s.Environment
          && lease.ProjectSlug == s.ProjectSlug && lease.Slug == s.Slug) = -1 := by
      by_contra hcon
      obtain ⟨pre, e, post, hs, hfe, _, _⟩ := IndexFunc_found d.leases _ id hcon
      apply hp
      exact ⟨e, by rw [hs]; simp, ((sameIdentity_iff lease e).mp hfe).symm⟩
    unfold DynamicSecretLeaseManager.Append
    simp only [hne, ne_eq, not_true_eq_false, if_false, List.map_append, List.map_cons,
      List.map_nil]
    rw [List.nodup_append]
    refine ⟨h, List.nodup_singleton _, ?_⟩
    intro k hk1 hk2
    rw [List.mem_singleton] at hk2
    subst hk2
    obtain ⟨e, he, hke⟩ := List.mem_map.mp hk1
    exact hp ⟨e, he, hke⟩

/-- `RegisterTemplate` leaves the sequence of identity keys as it is. -/
theorem RegisterTemplate_keys (d : DynamicSecretLeaseManager)
    (projectSlug environment secretPath slug : String) (templateId : Int) :
    (d.RegisterTemplate projectSlug environment secretPath slug templateId).leases.map
        DynamicSecretLease.key
      = d.leases.map DynamicSecretLease.key := by
  unfold DynamicSecretLeaseManager.RegisterTemplate
  simp only
  split
  · rename_i hne
    obtain ⟨pre, e, post, hs, _, _, hup⟩ := IndexFunc_found d.leases _
      (fun e => { e with TemplateIDs := e.TemplateIDs ++ [templateId] }) hne
    rw [hup]
    conv_rhs => rw [hs]
    simp [DynamicSecretLease.key]
  · rfl

/-- `Prune` keeps the identity keys pairwise distinct. -/
theorem Prune_keys_nodup (d : DynamicSecretLeaseManager) (now : Time)
    (h : (d.leases.map DynamicSecretLease.key).Nodup) :
    ((d.Prune now).leases.map DynamicSecretLease.key).Nodup := by
  unfold DynamicSecretLeaseManager.Prune DeleteFunc
  exact h.sublist ((List.filter_sublist _).map _)

/-- Any sequence of calls keeps the identity keys pairwise distinct. -/
theorem run_keys_nodup (ops : List RegistryOp) (d : DynamicSecretLeaseManager)
    (h : (d.leases.map DynamicSecretLease.key).Nodup) :
    ((d.run ops).leases.map DynamicSecretLease.key).Nodup := by
  induction ops generalizing d with
  | nil => exact h
  | cons op ops ih =>
    unfold DynamicSecretLeaseManager.run
    rw [List.foldl_cons]
    apply ih
    cases op with
    | Append lease => exact Append_keys_nodup d lease h
    | RegisterTemplate p e s sl t =>
      show ((d.RegisterTemplate p e s sl t).leases.map DynamicSecretLease.key).Nodup
      rw [RegisterTemplate_keys]
      exact h
    | Prune now => exact Prune_keys_nodup d now h

/-- C7 (at most one lease per identity): after any finite sequence of `Append`,
`RegisterTemplate` and `Prune` calls on the empty registry, the identity keys of
the leases are pairwise distinct; and `Append` of a lease whose key is present
leaves the number of leases unchanged and appends its `TemplateIDs` to those of
the lease registered under that key, changing nothing else. -/
theorem at_most_one_lease_per_identity (ops : List RegistryOp) :
    ((NewDynamicSecretLeaseManager.run ops).leases.map DynamicSecretLease.key).Nodup
      ∧ ∀ lease : DynamicSecretLease,
        (∃ e ∈ (NewDynamicSecretLeaseManager.run ops).leases, e.key = lease.key) →
        ((NewDynamicSecretLeaseManager.run ops).Append lease).leases.length
            = (NewDynamicSecretLeaseManager.run ops).leases.length
          ∧ ∃ pre e post,
            (NewDynamicSecretLeaseManager.run ops).leases = pre ++ e :: post
              ∧ e.key = lease.key
              ∧ ((NewDynamicSecretLeaseManager.run ops).Append lease).leases
                = pre ++ { e with TemplateIDs := e.TemplateIDs ++ lease.TemplateIDs } :: post := by
  refine ⟨run_keys_nodup ops _ (by simp [NewDynamicSecretLeaseManager]), ?_⟩
  intro lease hp
  obtain ⟨pre, e, post, hs, hk, _, hup⟩ := Append_present _ lease hp
  refine ⟨?_, pre, e, post, hs, hk, hup⟩
  rw [hup, hs]
  simp


/-- Instance of C7: appending a second lease for the identity
`(p, dev, /, db)` to the registry that holds one. -/
theorem at_most_one_lease_per_identity_witness :
    ((NewDynamicSecretLeaseManager.run
        [RegistryOp.Append (leaseOf "p" "dev" "/" "db" (atSecond 140) [0])]).Append
          (leaseOf "p" "dev" "/" "db" (atSecond 150) [1])).leases.length
        = (NewDynamicSecretLeaseManager.run
            [RegistryOp.Append (leaseOf "p" "dev" "/" "db" (atSecond 140) [0])]).leases.length
      ∧ ∃ pre e post,
        (NewDynamicSecretLeaseManager.run
            [RegistryOp.Append (leaseOf "p" "dev" "/" "db" (atSecond 140) [0])]).leases
          = pre ++ e :: post
        ∧ e.key = (leaseOf "p" "dev" "/" "db" (atSecond 150) [1]).key
        ∧ ((NewDynamicSecretLeaseManager.run
            [RegistryOp.Append (leaseOf "p" "dev" "/" "db" (atSecond 140) [0])]).Append
              (leaseOf "p" "dev" "/" "db" (atSecond 150) [1])).leases
          = pre ++ { e with TemplateIDs := e.TemplateIDs
              ++ (leaseOf "p" "dev" "/" "db" (atSecond 150) [1]).TemplateIDs } :: post :=
  (at_most_one_lease_per_identity
    [RegistryOp.Append (leaseOf "p" "dev" "/" "db" (atSecond 140) [0])]).2
    (leaseOf "p" "dev" "/" "db" (atSecond 150) [1])
    ⟨leaseOf "p" "dev" "/" "db" (atSecond 140) [0], by decide, by decide⟩

/-- Counterexample to C8 as stated: a lease expiring at `115 s` survives
`Prune` at `now = 100 s`, although `expires_at - 15 s = now`. -/
theorem Prune_counterexample :
    ((⟨[leaseOf "p" "dev" "/" "db" (atSecond 115) [0]]⟩ : DynamicSecretLeaseManager).Prune
        (atSecond 100)).leases
      = [leaseOf "p" "dev" "/" "db" (atSecond 115) [0]]
    ∧ (leaseOf "p" "dev" "/" "db" (atSecond 115) [0]).ExpireAt.ns - 15 * Second
      ≤ (atSecond 100).ns := by
  decide

/-- C8 (prune soundness), amended.  After `Prune` at `now` no remaining lease
has `expires_at - 15 s < now`; the remaining leases are exactly those with
`now ≤ expires_at - 15 s` (a lease with `expires_at - 15 s = now` is retained),
in their original order. -/
theorem Prune_sound (d : DynamicSecretLeaseManager) (now : Time) :
    (∀ l ∈ (d.Prune now).leases, ¬ (l.ExpireAt.ns - 15 * Second < now.ns))
      ∧ (d.Prune now).leases
        = d.leases.filter (fun l => decide (now.ns ≤ l.ExpireAt.ns - 15 * Second))
      ∧ (∀ l, l ∈ (d.Prune now).leases
          ↔ l ∈ d.leases ∧ now.ns ≤ l.ExpireAt.ns - 15 * Second)
      ∧ (d.Prune now).leases.Sublist d.leases := by
  have hfilter : (d.Prune now).leases
      = d.leases.filter (fun l => decide (now.ns ≤ l.ExpireAt.ns - 15 * Second)) := by
    unfold DynamicSecretLeaseManager.Prune DeleteFunc
    simp only
    congr 1
    funext l
    simp only [Time.After, Time.Add, DYNAMIC_SECRET_PRUNE_EXPIRE_BUFFER]
    by_cases h : now.ns ≤ l.ExpireAt.ns - 15 * Second
    · have h2 : ¬ (l.ExpireAt.ns + -15 * Second < now.ns) := by omega
      simp [h, h2]
      omega
    · have h2 : l.ExpireAt.ns + -15 * Second < now.ns := by omega
      simp [h, h2]
      omega
  refine ⟨?_, hfilter, ?_, ?_⟩
  · intro l hl
    rw [hfilter, List.mem_filter] at hl
    have := hl.2
    simp only [decide_eq_true_eq] at this
    omega
  · intro l
    rw [hfilter, List.mem_filter]
    simp
  · rw [hfilter]
    exact List.filter_sublist _


/-- From a non-zero index on, the loop of `GetFirstExpiringLeaseTime` returns
the minimum of its entry value and of the buffered expiries it visits. -/
theorem firstExpiryLoop_spec (ls : List DynamicSecretLease) (i : Nat) (fe : Time)
    (hi : i ≠ 0) :
    (firstExpiryLoop ls i fe).ns ≤ fe.ns
      ∧ (∀ l ∈ ls, (firstExpiryLoop ls i fe).ns ≤ l.ExpireAt.ns - 15 * Second)
      ∧ (firstExpiryLoop ls i fe = fe
        ∨ ∃ l ∈ ls, (firstExpiryLoop ls i fe).ns = l.ExpireAt.ns - 15 * Second) := by
  induction ls generalizing i fe with
  | nil => exact ⟨le_refl _, (by intro l hl; cases hl), Or.inl rfl⟩
  | cons el rest ih =>
    simp only [firstExpiryLoop, hi, if_false, Time.Before, Time.Add,
      DYNAMIC_SECRET_PRUNE_EXPIRE_BUFFER]
    by_cases hlt : el.ExpireAt.ns + -15 * Second < fe.ns
    · simp only [hlt, decide_True, if_true]
      obtain ⟨h1, h2, h3⟩ := ih (i + 1) ⟨el.ExpireAt.ns + -15 * Second⟩ (by omega)
      simp only at h1
      refine ⟨by omega, ?_, ?_⟩
      · intro l hl
        rcases List.mem_cons.mp hl with rfl | hl
        · omega
        · exact h2 l hl
      · right
        rcases h3 with h3 | ⟨l, hl, h3⟩
        · refine ⟨el, List.mem_cons_self _ _, ?_⟩
          rw [h3]
          simp only
          omega
        · exact ⟨l, List.mem_cons_of_mem _ hl, h3⟩
    · simp only [hlt, decide_False, Bool.false_eq_true, if_false]
      obtain ⟨h1, h2, h3⟩ := ih (i + 1) fe (by omega)
      refine ⟨h1, ?_, ?_⟩
      · intro l hl
        rcases List.mem_cons.mp hl with rfl | hl
        · omega
        · exact h2 l hl
      · rcases h3 with h3 | ⟨l, hl, h3⟩
        · exact Or.inl h3
        · exact Or.inr ⟨l, List.mem_cons_of_mem _ hl, h3⟩

/-- Over a non-empty list the loop of `GetFirstExpiringLeaseTime` returns the
least buffered expiry, whatever the entry value. -/
theorem firstExpiryLoop_min (ls : List DynamicSecretLease) (hne : ls ≠ []) (fe : Time) :
    (∀ l ∈ ls, (firstExpiryLoop ls 0 fe).ns ≤ l.ExpireAt.ns - 15 * Second)
      ∧ ∃ l ∈ ls, (firstExpiryLoop ls 0 fe).ns = l.ExpireAt.ns - 15 * Second := by
  cases ls with
  | nil => exact absurd rfl hne
  | cons el rest =>
    have hlt : el.ExpireAt.ns + -15 * Second < el.ExpireAt.ns := by
      unfold Second
      omega
    simp only [firstExpiryLoop, if_true, Time.Before, Time.Add,
      DYNAMIC_SECRET_PRUNE_EXPIRE_BUFFER, hlt, decide_True]
    obtain ⟨h1, h2, h3⟩ :=
      firstExpiryLoop_spec rest (0 + 1) ⟨el.ExpireAt.ns + -15 * Second⟩ (by omega)
    simp only at h1
    constructor
    · intro l hl
      rcases List.mem_cons.mp hl with rfl | hl
      · omega
      · exact h2 l hl
    · rcases h3 with h3 | ⟨l, hl, h3⟩
      · refine ⟨el, List.mem_cons_self _ _, ?_⟩
        rw [h3]
        simp only
        omega
      · exact ⟨l, List.mem_cons_of_mem _ hl, h3⟩

/-- C9 (earliest expiry): `GetFirstExpiringLeaseTime` returns `valid = false`
exactly when the registry is empty; on a non-empty registry it returns
`valid = true` and the least `ExpireAt - 15 s` over all leases (it is a lower
bound of all of them and is attained by one); the result is the same for every
template id. -/
theorem earliest_expiry (d : DynamicSecretLeaseManager) (templateId : Int) :
    ((d.GetFirstExpiringLeaseTime templateId).2 = false ↔ d.leases = [])
      ∧ (d.leases ≠ [] →
          (d.GetFirstExpiringLeaseTime templateId).2 = true
            ∧ (∀ l ∈ d.leases,
                (d.GetFirstExpiringLeaseTime templateId).1.ns ≤ l.ExpireAt.ns - 15 * Second)
            ∧ ∃ l ∈ d.leases,
                (d.GetFirstExpiringLeaseTime templateId).1.ns = l.ExpireAt.ns - 15 * Second)
      ∧ ∀ other : Int,
          d.GetFirstExpiringLeaseTime other = d.GetFirstExpiringLeaseTime templateId := by
  refine ⟨?_, ?_, fun _ => rfl⟩
  · unfold DynamicSecretLeaseManager.GetFirstExpiringLeaseTime
    by_cases h : d.leases = []
    · simp [h]
    · have hlen : ¬ d.leases.length = 0 := by
        simpa [List.length_eq_zero] using h
      simp [h, hlen]
  · intro h
    have hlen : ¬ d.leases.length = 0 := by
      simpa [List.length_eq_zero] using h
    unfold DynamicSecretLeaseManager.GetFirstExpiringLeaseTime
    simp only [hlen, if_false]
    exact ⟨trivial, firstExpiryLoop_min d.leases h Time.zero⟩

/-- Instance of C9: with leases expiring at `140 s` and `120 s` the result is
`105 s`, valid. -/
theorem earliest_expiry_witness :
    ((⟨[leaseOf "p" "dev" "/" "db" (atSecond 140) [0],
          leaseOf "p" "prod" "/" "db" (atSecond 120) [1]]⟩ :
        DynamicSecretLeaseManager).GetFirstExpiringLeaseTime 0)
      = (atSecond 105, true)
    ∧ ((⟨[leaseOf "p" "dev" "/" "db" (atSecond 140) [0],
          leaseOf "p" "prod" "/" "db" (atSecond 120) [1]]⟩ :
        DynamicSecretLeaseManager).GetFirstExpiringLeaseTime 0).2 = true :=
  ⟨by decide,
    ((earliest_expiry ⟨[leaseOf "p" "dev" "/" "db" (atSecond 140) [0],
        leaseOf "p" "prod" "/" "db" (atSecond 120) [1]]⟩ 0).2.1 (by decide)).1⟩

/-- When no element satisfies the predicate, `IndexFunc` returns `-1`. -/
theorem IndexFunc_none {α : Type} (s : List α) (f : α → Bool)
    (h : ∀ x ∈ s, f x = false) : IndexFunc s f = -1 := by
  induction s with
  | nil => simp [IndexFunc]
  | cons a as ih =>
    have ha : f a = false := h a (List.mem_cons_self _ _)
    have has : IndexFunc as f = -1 := ih (fun x hx => h x (List.mem_cons_of_mem _ hx))
    simp [IndexFunc, ha, has]

/-- `IndexFunc` finds the first element that satisfies the predicate, and an
update at the index it returns rewrites that element only. -/
theorem IndexFunc_split {α : Type} (pre : List α) (e : α) (post : List α) (f : α → Bool)
    (g : α → α) (he : f e = true) (hpre : ∀ x ∈ pre, f x = false) :
    IndexFunc (pre ++ e :: post) f ≠ -1
      ∧ updateAt (pre ++ e :: post) (IndexFunc (pre ++ e :: post) f).toNat g
        = pre ++ g e :: post := by
  induction pre with
  | nil => simp [IndexFunc, he, updateAt]
  | cons a as ih =>
    have ha : f a = false := hpre a (List.mem_cons_self _ _)
    obtain ⟨h1, h2⟩ := ih (fun x hx => hpre x (List.mem_cons_of_mem _ hx))
    have hr := IndexFunc_range (as ++ e :: post) f
    have hidx : IndexFunc (a :: (as ++ e :: post)) f = IndexFunc (as ++ e :: post) f + 1 := by
      simp [IndexFunc, ha, h1]
    have htn : (IndexFunc (as ++ e :: post) f + 1).toNat
        = (IndexFunc (as ++ e :: post) f).toNat + 1 := by
      omega
    constructor
    · rw [List.cons_append, hidx]
      omega
    · rw [List.cons_append, hidx, htn]
      simp only [updateAt, List.cons_append, h2]

/-- The comparison made by `RegisterTemplate` and `GetLease` holds exactly of the
leases with the given identity key. -/
theorem identity_iff (l : DynamicSecretLease) (projectSlug environment secretPath slug : String) :
    (l.SecretPath == secretPath && l.Environment == environment
      && l.ProjectSlug == projectSlug && l.Slug == slug) = true
      ↔ l.key = (projectSlug, environment, secretPath, slug) := by
  simp only [DynamicSecretLease.key, Bool.and_eq_true, beq_iff_eq, Prod.mk.injEq]
  tauto

/-- The comparison fails on a lease with another identity key. -/
theorem identity_false (l : DynamicSecretLease) (projectSlug environment secretPath slug : String)
    (h : l.key ≠ (projectSlug, environment, secretPath, slug)) :
    (l.SecretPath == secretPath && l.Environment == environment
      && l.ProjectSlug == projectSlug && l.Slug == slug) = false := by
  cases hb : (l.SecretPath == secretPath && l.Environment == environment
      && l.ProjectSlug == projectSlug && l.Slug == slug)
  · rfl
  · exact absurd ((identity_iff l projectSlug environment secretPath slug).mp hb) h

/-- `GetLease` returns the first lease with the given identity key. -/
theorem GetLease_first (pre : List DynamicSecretLease) (e : DynamicSecretLease)
    (post : List DynamicSecretLease) (projectSlug environment secretPath slug : String)
    (he : e.key = (projectSlug, environment, secretPath, slug))
    (hpre : ∀ x ∈ pre, x.key ≠ (projectSlug, environment, secretPath, slug)) :
    (⟨pre ++ e :: post⟩ : DynamicSecretLeaseManager).GetLease projectSlug environment
      secretPath slug = some e := by
  unfold DynamicSecretLeaseManager.GetLease
  induction pre with
  | nil =>
    simp only [List.nil_append, List.find?_cons]
    rw [(identity_iff e projectSlug environment secretPath slug).mpr he]
  | cons a as ih =>
    simp only [List.cons_append, List.find?_cons]
    rw [identity_false a projectSlug environment secretPath slug
      (hpre a (List.mem_cons_self _ _))]
    exact ih (fun x hx => hpre x (List.mem_cons_of_mem _ hx))

/-- `GetLease` returns nil when no lease has the given identity key. -/
theorem GetLease_none (d : DynamicSecretLeaseManager)
    (projectSlug environment secretPath slug : String)
    (h : ∀ x ∈ d.leases, x.key ≠ (projectSlug, environment, secretPath, slug)) :
    d.GetLease projectSlug environment secretPath slug = none := by
  unfold DynamicSecretLeaseManager.GetLease
  rw [List.find?_eq_none]
  intro x hx
  rw [identity_false x projectSlug environment secretPath slug (h x hx)]
  decide

/-- `RegisterTemplate` appends the template id to the first lease with the given
identity key and changes nothing else. -/
theorem RegisterTemplate_first (pre : List DynamicSecretLease) (e : DynamicSecretLease)
    (post : List DynamicSecretLease) (projectSlug environment secretPath slug : String)
    (templateId : Int)
    (he : e.key = (projectSlug, environment, secretPath, slug))
    (hpre : ∀ x ∈ pre, x.key ≠ (projectSlug, environment, secretPath, slug)) :
    ((⟨pre ++ e :: post⟩ : DynamicSecretLeaseManager).RegisterTemplate projectSlug environment
        secretPath slug templateId).leases
      = pre ++ { e with TemplateIDs := e.TemplateIDs ++ [templateId] } :: post := by
  obtain ⟨h1, h2⟩ := IndexFunc_split pre e post
    (fun lease : DynamicSecretLease =>
      lease.SecretPath == secretPath && lease.Environment == environment
        && lease.ProjectSlug == projectSlug && lease.Slug == slug)
    (fun e => { e with TemplateIDs := e.TemplateIDs ++ [templateId] })
    ((identity_iff e projectSlug environment secretPath slug).mpr he)
    (fun x hx => identity_false x projectSlug environment secretPath slug (hpre x hx))
  unfold DynamicSecretLeaseManager.RegisterTemplate
  simp only [h1, ne_eq, not_false_eq_true, if_true]
  exact h2

/-- `Append` of a lease whose identity key is not registered inserts it at the end. -/
theorem Append_absent (d : DynamicSecretLeaseManager) (lease : DynamicSecretLease)
    (h : ∀ x ∈ d.leases, x.key ≠ lease.key) :
    (d.Append lease).leases = d.leases ++ [lease] := by
  have hidx : IndexFunc d.leases (fun s =>
      lease.SecretPath == s.SecretPath && lease.Environment == s.Environment
        && lease.ProjectSlug == s.ProjectSlug && lease.Slug == s.Slug) = -1 := by
    apply IndexFunc_none
    intro x hx
    cases hb : (lease.SecretPath == x.SecretPath && lease.Environment == x.Environment
        && lease.ProjectSlug == x.ProjectSlug && lease.Slug == x.Slug)
    · rfl
    · exact absurd ((sameIdentity_iff lease x).mp hb).symm (h x hx)
  unfold DynamicSecretLeaseManager.Append
  simp only [hidx, ne_eq, not_true_eq_false, if_false]

/-- What a call of `dynamic_secret` does when no other worker touches the
registry while it runs: a call with an argument count other than 4 or 5 returns
an error, sends no request and leaves the registry as it is; a call that finds
a lease with the identity key returns the data of the first such lease without
sending a request and appends `templateId` to its `TemplateIDs`; a call that
finds none sends exactly one request and then either appends one lease made of
the answer, with `TemplateIDs = [templateId]`, or returns the error of the
service and leaves the registry as it is. -/
theorem dynamicSecretTemplateFunction_spec (util : Util) (accessToken : String)
    (d : DynamicSecretLeaseManager) (templateId : Int) :
    (∀ args : List String, args.length ≠ 4 → args.length ≠ 5 →
        (∃ err, (dynamicSecretTemplateFunction util accessToken d templateId args).value
            = Except.error err)
          ∧ (dynamicSecretTemplateFunction util accessToken d templateId args).manager = d
          ∧ (dynamicSecretTemplateFunction util accessToken d templateId args).requests = [])
      ∧ ∀ (projectSlug envSlug secretPath slug : String) (ttl : Option String),
        (∀ pre e post, d.leases = pre ++ e :: post →
            e.key = (projectSlug, envSlug, secretPath, slug) →
            (∀ x ∈ pre, x.key ≠ (projectSlug, envSlug, secretPath, slug)) →
            (dynamicSecretTemplateFunction util accessToken d templateId
                ([projectSlug, envSlug, secretPath, slug] ++ ttl.toList)).value
              = Except.ok e.Data
            ∧ (dynamicSecretTemplateFunction util accessToken d templateId
                ([projectSlug, envSlug, secretPath, slug] ++ ttl.toList)).requests = []
            ∧ (dynamicSecretTemplateFunction util accessToken d templateId
                ([projectSlug, envSlug, secretPath, slug] ++ ttl.toList)).manager.leases
              = pre ++ { e with TemplateIDs := e.TemplateIDs ++ [templateId] } :: post)
        ∧ ((∀ x ∈ d.leases, x.key ≠ (projectSlug, envSlug, secretPath, slug)) →
            (dynamicSecretTemplateFunction util accessToken d templateId
                ([projectSlug, envSlug, secretPath, slug] ++ ttl.toList)).requests
              = [⟨accessToken, projectSlug, envSlug, secretPath, slug, ttl.getD ""⟩]
            ∧ (∀ res, util.CreateDynamicSecretLease
                  ⟨accessToken, projectSlug, envSlug, secretPath, slug, ttl.getD ""⟩
                  = Except.ok res →
                (dynamicSecretTemplateFunction util accessToken d templateId
                    ([projectSlug, envSlug, secretPath, slug] ++ ttl.toList)).value
                  = Except.ok res.Data
                ∧ (dynamicSecretTemplateFunction util accessToken d templateId
                    ([projectSlug, envSlug, secretPath, slug] ++ ttl.toList)).manager.leases
                  = d.leases ++ [
                      { LeaseID := res.LeaseId, ExpireAt := res.ExpireAt,
                        Environment := envSlug, SecretPath := secretPath, Slug := slug,
                        ProjectSlug := projectSlug, Data := res.Data,
                        TemplateIDs := [templateId] }])
            ∧ (∀ err, util.CreateDynamicSecretLease
                  ⟨accessToken, projectSlug, envSlug, secretPath, slug, ttl.getD ""⟩
                  = Except.error err →
                (dynamicSecretTemplateFunction util accessToken d templateId
                    ([projectSlug, envSlug, secretPath, slug] ++ ttl.toList)).value
                  = Except.error err
                ∧ (dynamicSecretTemplateFunction util accessToken d templateId
                    ([projectSlug, envSlug, secretPath, slug] ++ ttl.toList)).manager = d)) := by
  constructor
  · intro args h4 h5
    have hcall : dynamicSecretTemplateFunction util accessToken d templateId args
        = { value := Except.error "Invalid arguments found for dynamic-secret function",
            manager := d, requests := [] } := by
      unfold dynamicSecretTemplateFunction
      simp only [h4, h5, ne_eq, not_false_eq_true, and_self, if_true]
    rw [hcall]
    exact ⟨⟨_, rfl⟩, rfl, rfl⟩
  · intro projectSlug envSlug secretPath slug ttl
    have hargs : dynamicSecretTemplateFunction util accessToken d templateId
        ([projectSlug, envSlug, secretPath, slug] ++ ttl.toList)
        = match d.GetLease projectSlug envSlug secretPath slug with
          | some dynamicSecretData =>
            { value := Except.ok dynamicSecretData.Data,
              manager := d.RegisterTemplate projectSlug envSlug secretPath slug templateId,
              requests := [] }
          | none =>
            match util.CreateDynamicSecretLease
                ⟨accessToken, projectSlug, envSlug, secretPath, slug, ttl.getD ""⟩ with
            | Except.error err =>
              { value := Except.error err, manager := d,
                requests := [⟨accessToken, projectSlug, envSlug, secretPath, slug,
                  ttl.getD ""⟩] }
            | Except.ok res =>
              { value := Except.ok res.Data,
                manager := d.Append
                  { LeaseID := res.LeaseId, ExpireAt := res.ExpireAt, Environment := envSlug,
                    SecretPath := secretPath, Slug := slug, ProjectSlug := projectSlug,
                    Data := res.Data, TemplateIDs := [templateId] },
                requests := [⟨accessToken, projectSlug, envSlug, secretPath, slug,
                  ttl.getD ""⟩] } := by
      cases ttl with
      | none => rfl
      | some t => rfl
    rw [hargs]
    constructor
    · intro pre e post hs he hpre
      have hd : d = ⟨pre ++ e :: post⟩ := by
        cases d
        simp only at hs
        rw [hs]
      rw [hd, GetLease_first pre e post projectSlug envSlug secretPath slug he hpre]
      exact ⟨rfl, rfl,
        RegisterTemplate_first pre e post projectSlug envSlug secretPath slug templateId he hpre⟩
    · intro habs
      rw [GetLease_none d projectSlug envSlug secretPath slug habs]
      cases hres : util.CreateDynamicSecretLease
          ⟨accessToken, projectSlug, envSlug, secretPath, slug, ttl.getD ""⟩ with
      | error err =>
        refine ⟨rfl, ?_, ?_⟩
        · intro res h
          cases h
        · intro err2 h
          cases h
          exact ⟨rfl, rfl⟩
      | ok res =>
        refine ⟨rfl, ?_, ?_⟩
        · intro res2 h
          cases h
          exact ⟨rfl, Append_absent d _ habs⟩
        · intro err h
          cases h


/-- The gate of a tick with a non-empty token, in terms of the calls of
`WriteTemplateToFile` made, whatever their outcome (`r` is the result of the
render, `t` the outcome of the tick): on a successful render the call is made
iff `first_run` was true at entry or the `current_etag` the render leaves
differs from `existing_etag`, and the variables and the command follow the call;
a failed render leaves no call, no command and `existing_etag` and `first_run`
unchanged. -/
theorem MonitorSecretChanges_gating (secretTemplate : Template) (program : TemplateProgram)
    (templateId : Int) (pollingInterval : Int) (env : TickEnv) (w : WorkerState)
    (d : DynamicSecretLeaseManager) (htoken : env.token ≠ "") :
    let r := ProcessTemplate env.util templateId program env.token w.existingEtag
      w.currentEtag (d.Prune env.pruneNow)
    let t := MonitorSecretChanges secretTemplate program templateId pollingInterval env w d
    (∀ bytes, r.1 = Except.ok bytes →
        (t.writes ≠ [] ↔ (w.firstRun = true ∨ r.2.1 ≠ w.existingEtag))
          ∧ (t.writes = [] ∨ t.writes = [WriteTemplateToFile env.fsError bytes secretTemplate])
          ∧ (t.commands ≠ []
              ↔ (t.writes ≠ [] ∧ w.firstRun = false ∧ secretTemplate.Command ≠ ""))
          ∧ (t.commands = []
              ∨ t.commands = [(secretTemplate.Command, secretTemplate.Timeout)])
          ∧ (t.writes ≠ [] →
              t.state.firstRun = false ∧ t.state.existingEtag = r.2.1
                ∧ t.state.currentEtag = r.2.1)
          ∧ (t.writes = [] →
              t.state.firstRun = w.firstRun ∧ t.state.existingEtag = w.existingEtag))
      ∧ (∀ err, r.1 = Except.error err →
          t.writes = [] ∧ t.commands = [] ∧ t.state.existingEtag = w.existingEtag
            ∧ t.state.firstRun = w.firstRun) := by
  intro r t
  have ht : t = MonitorSecretChanges secretTemplate program templateId pollingInterval env w d :=
    rfl
  have hr : r = ProcessTemplate env.util templateId program env.token w.existingEtag
      w.currentEtag (d.Prune env.pruneNow) := rfl
  unfold MonitorSecretChanges at ht
  simp only [htoken, ne_eq, not_false_eq_true, if_true, ← hr] at ht
  rcases r with ⟨res, cur, d2⟩
  cases res with
  | error e =>
    simp only at ht
    constructor
    · intro bytes hb
      cases hb
    · intro err _
      rw [ht]
      exact ⟨rfl, rfl, rfl, rfl⟩
  | ok bytes =>
    simp only at ht
    constructor
    · intro b hb
      simp only [Except.ok.injEq] at hb
      subst hb
      by_cases hgate : ¬ w.existingEtag = cur ∨ w.firstRun = true
      · rw [if_pos hgate] at ht
        rw [ht]
        refine ⟨?_, Or.inr rfl, ?_, ?_, ?_, ?_⟩
        · constructor
          · intro _
            rcases hgate with h | h
            · exact Or.inr (fun h2 => h h2.symm)
            · exact Or.inl h
          · intro _
            simp
        · by_cases hc : ¬ w.firstRun = true ∧ ¬ secretTemplate.Command = ""
          · rw [if_pos hc]
            simp [hc.2]
            simpa using hc.1
          · rw [if_neg hc]
            simp only [ne_eq, not_true_eq_false, false_iff, not_and]
            intro _ h1 h2
            exact hc ⟨by simp [h1], h2⟩
        · by_cases hc : ¬ w.firstRun = true ∧ ¬ secretTemplate.Command = ""
          · rw [if_pos hc]
            exact Or.inr rfl
          · rw [if_neg hc]
            exact Or.inl rfl
        · intro _
          exact ⟨rfl, rfl, rfl⟩
        · intro h
          simp at h
      · rw [if_neg hgate] at ht
        rw [ht]
        have hg1 : w.existingEtag = cur := by
          by_contra h
          exact hgate (Or.inl h)
        have hg2 : ¬ w.firstRun = true := fun h => hgate (Or.inr h)
        refine ⟨?_, Or.inl rfl, ?_, Or.inl rfl, ?_, ?_⟩
        · constructor
          · intro h
            exact absurd rfl h
          · intro h
            rcases h with h | h
            · exact absurd h hg2
            · exact absurd hg1.symm h
        · constructor
          · intro h
            exact absurd rfl h
          · intro h
            exact absurd rfl h.1
        · intro h
          exact absurd rfl h
        · intro _
          exact ⟨rfl, rfl⟩
    · intro err he
      cases he


/-- When every secrets answer carries the ETag `existingEtag`, a render leaves
`*currentEtag` as it was. -/
theorem executeCalls_same_etag (util : Util) (templateId : Int)
    (accessToken existingEtag : String) (calls : List TemplateCall) (currentEtag : String)
    (d : DynamicSecretLeaseManager)
    (h : ∀ projectID envSlug secretPath res,
      util.GetPlainTextSecretsViaMachineIdentity accessToken projectID envSlug secretPath
        = Except.ok res → res.Etag = existingEtag) :
    (executeCalls util templateId accessToken existingEtag calls currentEtag d).2.1
      = currentEtag := by
  induction calls generalizing d with
  | nil => rfl
  | cons c rest ih =>
    cases c with
    | secret projectID envSlug secretPath =>
      unfold executeCalls secretTemplateFunction
      cases hres : util.GetPlainTextSecretsViaMachineIdentity accessToken projectID envSlug
          secretPath with
      | error err => rfl
      | ok res =>
        have he := h projectID envSlug secretPath res hres
        simp only [he, ne_eq, not_true_eq_false, if_false]
        exact ih d
    | dynamic_secret args =>
      unfold executeCalls
      simp only
      cases hv : (dynamicSecretTemplateFunction util accessToken d templateId args).value with
      | error err => rfl
      | ok v => exact ih _

/-- Scenario S2 for a service whose secrets answers all carry one ETag (as with
a template that calls `secret` once): a tick entered with that ETag as
`existing_etag` and `current_etag` and `first_run` false writes nothing, runs no
command and leaves the three variables as they were. -/
theorem no_change_single_etag (secretTemplate : Template) (program : TemplateProgram)
    (templateId : Int) (pollingInterval : Int) (env : TickEnv) (etag : String)
    (d : DynamicSecretLeaseManager)
    (h : ∀ projectID envSlug secretPath res,
      env.util.GetPlainTextSecretsViaMachineIdentity env.token projectID envSlug secretPath
        = Except.ok res → res.Etag = etag) :
    (MonitorSecretChanges secretTemplate program templateId pollingInterval env
        ⟨etag, etag, false⟩ d).writes = []
      ∧ (MonitorSecretChanges secretTemplate program templateId pollingInterval env
        ⟨etag, etag, false⟩ d).commands = []
      ∧ (MonitorSecretChanges secretTemplate program templateId pollingInterval env
        ⟨etag, etag, false⟩ d).state = ⟨etag, etag, false⟩ := by
  by_cases htoken : env.token = ""
  · unfold MonitorSecretChanges
    simp only [htoken, ne_eq, not_true_eq_false, if_false]
    exact ⟨trivial, trivial, trivial⟩
  · have hcur := executeCalls_same_etag env.util templateId env.token etag program.calls etag
      (d.Prune env.pruneNow) h
    unfold MonitorSecretChanges ProcessTemplate
    simp only [htoken, ne_eq, not_false_eq_true, if_true]
    rcases hx : executeCalls env.util templateId env.token etag program.calls etag
      (d.Prune env.pruneNow) with ⟨err, cur, d2⟩
    rw [hx] at hcur
    simp only at hcur
    subst hcur
    cases err with
    | some e => exact ⟨rfl, rfl, rfl⟩
    | none =>
      simp only
      cases program.output with
      | error e => exact ⟨rfl, rfl, rfl⟩
      | ok bytes =>
        simp only [not_true_eq_false, Bool.false_eq_true, or_self, if_false]
        exact ⟨trivial, trivial, trivial⟩

/-- C12 (no change means no write) fails for a template that calls `secret`
twice.  With ETags `A` and `B` for the two calls, the first tick writes the
artifact and leaves `existing_etag = B`; the next tick, on which both calls
return the same ETags as before, writes the artifact again, runs the command
and leaves `existing_etag = current_etag = A`. -/
theorem no_change_rewrites :
    MonitorSecretChanges (templateTo "reload") twoSecrets 0 (5 * Minute)
        (envAt (utilOf etagAB (atSecond 0)) none (atSecond 100)) WorkerState.init
        NewDynamicSecretLeaseManager
      = { state := ⟨"B", "B", false⟩, dynamicSecretLeases := NewDynamicSecretLeaseManager,
          writes := [⟨"text", "/out", none⟩], commands := [], sleep := 5 * Minute }
    ∧ MonitorSecretChanges (templateTo "reload") twoSecrets 0 (5 * Minute)
        (envAt (utilOf etagAB (atSecond 0)) none (atSecond 400)) ⟨"B", "B", false⟩
        NewDynamicSecretLeaseManager
      = { state := ⟨"A", "A", false⟩, dynamicSecretLeases := NewDynamicSecretLeaseManager,
          writes := [⟨"text", "/out", none⟩], commands := [("reload", 0)],
          sleep := 5 * Minute } := by
  decide

/-- C14 (a failed write is retried) fails.  On the first tick the write of the
artifact fails, yet the tick leaves `existing_etag = A` and `first_run = false`;
on the next tick, with the same ETag and a successful render, there is no call
of `WriteTemplateToFile`. -/
theorem failed_write_not_retried :
    MonitorSecretChanges (templateTo "") oneSecret 0 (5 * Minute)
        (envAt (utilOf etagAB (atSecond 0)) (some "permission denied") (atSecond 100))
        WorkerState.init NewDynamicSecretLeaseManager
      = { state := ⟨"A", "A", false⟩, dynamicSecretLeases := NewDynamicSecretLeaseManager,
          writes := [⟨"text", "/out", some "permission denied"⟩], commands := [],
          sleep := 5 * Minute }
    ∧ MonitorSecretChanges (templateTo "") oneSecret 0 (5 * Minute)
        (envAt (utilOf etagAB (atSecond 0)) none (atSecond 400)) ⟨"A", "A", false⟩
        NewDynamicSecretLeaseManager
      = { state := ⟨"A", "A", false⟩, dynamicSecretLeases := NewDynamicSecretLeaseManager,
          writes := [], commands := [], sleep := 5 * Minute } := by
  decide

/-! ### The worker among the other workers, and its sleep -/

/-- Counterexample to C11 as stated: a worker past its first run holds
`existing_etag = A`, the secret now carries ETag `B`, the render succeeds and
the write of the artifact fails.  The gate is open and yet no write is
performed, and the command is run although no write was performed. -/
theorem render_gating_counterexample :
    (ProcessTemplate (utilOf (fun _ => "B") (atSecond 0)) 0 oneSecret "tok" "A" "A"
        (NewDynamicSecretLeaseManager.Prune (atSecond 100)))
      = (Except.ok "text", "B", NewDynamicSecretLeaseManager)
    ∧ (MonitorSecretChanges (templateTo "reload") oneSecret 0 (5 * Minute)
        (envAt (utilOf (fun _ => "B") (atSecond 0)) (some "permission denied") (atSecond 100))
        ⟨"A", "A", false⟩ NewDynamicSecretLeaseManager).writes
      = [⟨"text", "/out", some "permission denied"⟩]
    ∧ (MonitorSecretChanges (templateTo "reload") oneSecret 0 (5 * Minute)
        (envAt (utilOf (fun _ => "B") (atSecond 0)) (some "permission denied") (atSecond 100))
        ⟨"A", "A", false⟩ NewDynamicSecretLeaseManager).written = []
    ∧ (MonitorSecretChanges (templateTo "reload") oneSecret 0 (5 * Minute)
        (envAt (utilOf (fun _ => "B") (atSecond 0)) (some "permission denied") (atSecond 100))
        ⟨"A", "A", false⟩ NewDynamicSecretLeaseManager).commands = [("reload", 0)] := by
  decide

/-- C11 (render gating), amended.  On a tick with a non-empty token, with `r`
the result of the render and `t` the outcome of the tick.  If the render
succeeds, the write of the artifact is attempted (`WriteTemplateToFile` is
called, once, with the rendered text) iff `first_run` was true at entry or the
`current_etag` the render leaves differs from `existing_etag`, and without an
attempt no command is run and `existing_etag` and `first_run` are unchanged.
When the file system accepts the write: the artifact is written iff that gate
is open; the post-render command is run iff the artifact was written,
`first_run` was false at entry and a command is configured; and after the write
`first_run` is false and `existing_etag` is the `current_etag` of the tick.  If
the render fails there is no write and no command, and `existing_etag` and
`first_run` are unchanged. -/
theorem render_gating (secretTemplate : Template) (program : TemplateProgram)
    (templateId : Int) (pollingInterval : Int) (env : TickEnv) (w : WorkerState)
    (d : DynamicSecretLeaseManager) (htoken : env.token ≠ "") :
    let r := ProcessTemplate env.util templateId program env.token w.existingEtag
      w.currentEtag (d.Prune env.pruneNow)
    let t := MonitorSecretChanges secretTemplate program templateId pollingInterval env w d
    (∀ bytes, r.1 = Except.ok bytes →
        (t.writes ≠ [] ↔ (w.firstRun = true ∨ r.2.1 ≠ w.existingEtag))
          ∧ (t.writes = [] ∨ t.writes = [WriteTemplateToFile env.fsError bytes secretTemplate])
          ∧ (t.writes = [] →
              t.commands = [] ∧ t.state.firstRun = w.firstRun
                ∧ t.state.existingEtag = w.existingEtag)
          ∧ (env.fsError = none →
              (t.written ≠ [] ↔ (w.firstRun = true ∨ r.2.1 ≠ w.existingEtag))
                ∧ (t.commands ≠ []
                    ↔ (t.written ≠ [] ∧ w.firstRun = false ∧ secretTemplate.Command ≠ ""))
                ∧ (t.commands = []
                    ∨ t.commands = [(secretTemplate.Command, secretTemplate.Timeout)])
                ∧ (t.written ≠ [] →
                    t.state.firstRun = false ∧ t.state.existingEtag = r.2.1
                      ∧ t.state.currentEtag = r.2.1)))
      ∧ (∀ err, r.1 = Except.error err →
          t.writes = [] ∧ t.written = [] ∧ t.commands = []
            ∧ t.state.existingEtag = w.existingEtag ∧ t.state.firstRun = w.firstRun) := by
  intro r t
  obtain ⟨hok, herr⟩ := MonitorSecretChanges_gating secretTemplate program templateId
    pollingInterval env w d htoken
  constructor
  · intro bytes hb
    obtain ⟨g1, g2, g3, g4, g5, g6⟩ := hok bytes hb
    refine ⟨g1, g2, ?_, ?_⟩
    · intro hw
      have hc : t.commands = [] := by
        by_contra hne
        exact (g3.mp hne).1 hw
      exact ⟨hc, g6 hw⟩
    · intro hfs
      have hwr : t.written = t.writes := by
        rcases g2 with h | h
        · simp only [Tick.written]
          rw [h]
          rfl
        · simp only [Tick.written]
          rw [h]
          simp [WriteTemplateToFile, hfs]
      rw [hwr]
      exact ⟨g1, g3, g4, g5⟩
  · intro err he
    obtain ⟨e1, e2, e3, e4⟩ := herr err he
    refine ⟨e1, ?_, e2, e3, e4⟩
    simp only [Tick.written]
    rw [e1]
    rfl

/-- Instance of the amended C11 (scenario S1): the first tick of a worker whose
template reads one secret with ETag `A`, with a file system that accepts the
write, writes the artifact, runs no command and leaves `existing_etag = A`,
`first_run = false`. -/
theorem render_gating_witness :
    ((MonitorSecretChanges (templateTo "reload") oneSecret 0 (5 * Minute)
          (envAt (utilOf etagAB (atSecond 0)) none (atSecond 100)) WorkerState.init
          NewDynamicSecretLeaseManager).written ≠ []
        ↔ (WorkerState.init.firstRun = true
          ∨ (ProcessTemplate (envAt (utilOf etagAB (atSecond 0)) none (atSecond 100)).util 0
              oneSecret (envAt (utilOf etagAB (atSecond 0)) none (atSecond 100)).token
              WorkerState.init.existingEtag WorkerState.init.currentEtag
              (NewDynamicSecretLeaseManager.Prune
                (envAt (utilOf etagAB (atSecond 0)) none (atSecond 100)).pruneNow)).2.1
            ≠ WorkerState.init.existingEtag))
      ∧ (MonitorSecretChanges (templateTo "reload") oneSecret 0 (5 * Minute)
          (envAt (utilOf etagAB (atSecond 0)) none (atSecond 100)) WorkerState.init
          NewDynamicSecretLeaseManager).written = [⟨"text", "/out", none⟩]
      ∧ (MonitorSecretChanges (templateTo "reload") oneSecret 0 (5 * Minute)
          (envAt (utilOf etagAB (atSecond 0)) none (atSecond 100)) WorkerState.init
          NewDynamicSecretLeaseManager).commands = []
      ∧ (MonitorSecretChanges (templateTo "reload") oneSecret 0 (5 * Minute)
          (envAt (utilOf etagAB (atSecond 0)) none (atSecond 100)) WorkerState.init
          NewDynamicSecretLeaseManager).state = ⟨"A", "A", false⟩ :=
  ⟨(((render_gating (templateTo "reload") oneSecret 0 (5 * Minute)
      (envAt (utilOf etagAB (atSecond 0)) none (atSecond 100)) WorkerState.init
      NewDynamicSecretLeaseManager (by decide)).1 "text" (by decide)).2.2.2 rfl).1,
    by decide, by decide, by decide⟩

/-- When the calls of the other workers leave the registry as it was, a call of
`dynamic_secret` among them does what a call on its own does. -/
theorem dynamicSecretTemplateFunctionAmong_quiet (util : Util) (accessToken : String)
    (d : DynamicSecretLeaseManager) (templateId : Int) (args : List String)
    (others : List RegistryOp) (hquiet : d.run others = d) :
    dynamicSecretTemplateFunctionAmong util accessToken d templateId args others
      = dynamicSecretTemplateFunction util accessToken d templateId args := by
  unfold dynamicSecretTemplateFunctionAmong dynamicSecretTemplateFunction
  rw [hquiet]

/-- Counterexample to C13 as stated: the registry is empty when a call of
`dynamic_secret` by template 3 looks up `(p, dev, /, db)`; while its request to
the service is under way, the worker of template 0 appends its own lease
`other` for the same key.  The call returns the data of its own lease, but the
registry does not gain that lease: `Append` merges template 3 into the lease
`other`, which has another id, expiry and data and `TemplateIDs = [0, 3]`. -/
theorem dynamic_secret_lease_reuse_counterexample :
    NewDynamicSecretLeaseManager.GetLease "p" "dev" "/" "db" = none
    ∧ (dynamicSecretTemplateFunctionAmong (utilOf etagAB (atSecond 200)) "tok"
        NewDynamicSecretLeaseManager 3 ["p", "dev", "/", "db"]
        [RegistryOp.Append
          { leaseOf "p" "dev" "/" "db" (atSecond 140) [0] with LeaseID := "other" }])
      = { value := Except.ok [("user", "db")],
          manager := ⟨[{ leaseOf "p" "dev" "/" "db" (atSecond 140) [0, 3] with
            LeaseID := "other" }]⟩,
          requests := [⟨"tok", "p", "dev", "/", "db", ""⟩] }
    ∧ (utilOf etagAB (atSecond 200)).CreateDynamicSecretLease
        ⟨"tok", "p", "dev", "/", "db", ""⟩
      = Except.ok ⟨"lease", atSecond 200, [("user", "db")]⟩
    ∧ ∀ l ∈ (dynamicSecretTemplateFunctionAmong (utilOf etagAB (atSecond 200)) "tok"
        NewDynamicSecretLeaseManager 3 ["p", "dev", "/", "db"]
        [RegistryOp.Append
          { leaseOf "p" "dev" "/" "db" (atSecond 140) [0] with LeaseID := "other" }]).manager.leases,
        l.LeaseID ≠ "lease" ∧ l.ExpireAt ≠ atSecond 200 ∧ l.TemplateIDs ≠ [3] := by
  decide

/-- C13 (lease reuse by `dynamic_secret`), amended: the claim holds of every call
during which the other workers leave the registry as it was (`hquiet`).  A call
with an argument count other than 4 or 5 returns an error, sends no request and
leaves the registry as it is.  A call with the arguments
`project_slug, env_slug, secret_path, slug` and an optional `ttl`: when the
registry holds a lease with that identity key, returns the data of the first
such lease without sending a request, appends `templateId` to the `TemplateIDs`
of that lease and changes nothing else; when it holds none, sends exactly one
request, with the ttl or the empty string, and then either appends one lease
made of the identity key, the lease id, expiry and data of the answer and
`TemplateIDs = [templateId]` and returns the data of the answer, or returns the
error of the service and leaves the registry as it is. -/
theorem dynamic_secret_lease_reuse (util : Util) (accessToken : String)
    (d : DynamicSecretLeaseManager) (templateId : Int) (others : List RegistryOp)
    (hquiet : d.run others = d) :
    (∀ args : List String, args.length ≠ 4 → args.length ≠ 5 →
        (∃ err, (dynamicSecretTemplateFunctionAmong util accessToken d templateId
                args others).value
            = Except.error err)
          ∧ (dynamicSecretTemplateFunctionAmong util accessToken d templateId
                args others).manager = d
          ∧ (dynamicSecretTemplateFunctionAmong util accessToken d templateId
                args others).requests = [])
      ∧ ∀ (projectSlug envSlug secretPath slug : String) (ttl : Option String),
        (∀ pre e post, d.leases = pre ++ e :: post →
            e.key = (projectSlug, envSlug, secretPath, slug) →
            (∀ x ∈ pre, x.key ≠ (projectSlug, envSlug, secretPath, slug)) →
            (dynamicSecretTemplateFunctionAmong util accessToken d templateId
                ([projectSlug, envSlug, secretPath, slug] ++ ttl.toList) others).value
              = Except.ok e.Data
            ∧ (dynamicSecretTemplateFunctionAmong util accessToken d templateId
                ([projectSlug, envSlug, secretPath, slug] ++ ttl.toList) others).requests = []
            ∧ (dynamicSecretTemplateFunctionAmong util accessToken d templateId
                ([projectSlug, envSlug, secretPath, slug] ++ ttl.toList) others).manager.leases
              = pre ++ { e with TemplateIDs := e.TemplateIDs ++ [templateId] } :: post)
        ∧ ((∀ x ∈ d.leases, x.key ≠ (projectSlug, envSlug, secretPath, slug)) →
            (dynamicSecretTemplateFunctionAmong util accessToken d templateId
                ([projectSlug, envSlug, secretPath, slug] ++ ttl.toList) others).requests
              = [⟨accessToken, projectSlug, envSlug, secretPath, slug, ttl.getD ""⟩]
            ∧ (∀ res, util.CreateDynamicSecretLease
                  ⟨accessToken, projectSlug, envSlug, secretPath, slug, ttl.getD ""⟩
                  = Except.ok res →
                (dynamicSecretTemplateFunctionAmong util accessToken d templateId
                ([projectSlug, envSlug, secretPath, slug] ++ ttl.toList) others).value
                  = Except.ok res.Data
                ∧ (dynamicSecretTemplateFunctionAmong util accessToken d templateId
                ([projectSlug, envSlug, secretPath, slug] ++ ttl.toList) others).manager.leases
                  = d.leases ++ [
                      { LeaseID := res.LeaseId, ExpireAt := res.ExpireAt,
                        Environment := envSlug, SecretPath := secretPath, Slug := slug,
                        ProjectSlug := projectSlug, Data := res.Data,
                        TemplateIDs := [templateId] }])
            ∧ (∀ err, util.CreateDynamicSecretLease
                  ⟨accessToken, projectSlug, envSlug, secretPath, slug, ttl.getD ""⟩
                  = Except.error err →
                (dynamicSecretTemplateFunctionAmong util accessToken d templateId
                ([projectSlug, envSlug, secretPath, slug] ++ ttl.toList) others).value
                  = Except.error err
                ∧ (dynamicSecretTemplateFunctionAmong util accessToken d templateId
                ([projectSlug, envSlug, secretPath, slug] ++ ttl.toList) others).manager = d)) := by
  have hq : ∀ args : List String,
      dynamicSecretTemplateFunctionAmong util accessToken d templateId args others
        = dynamicSecretTemplateFunction util accessToken d templateId args :=
    fun args => dynamicSecretTemplateFunctionAmong_quiet util accessToken d templateId args
      others hquiet
  simp only [hq]
  exact dynamicSecretTemplateFunction_spec util accessToken d templateId

/-- Instance of the amended C13, the other workers pruning at `100 s` a registry
that holds nothing to prune: a call that finds the lease for `(p, dev, /, db)`,
a call on the empty registry, and a call with three arguments. -/
theorem dynamic_secret_lease_reuse_witness :
    ((dynamicSecretTemplateFunctionAmong (utilOf etagAB (atSecond 200)) "tok"
          ⟨[leaseOf "p" "dev" "/" "db" (atSecond 140) [0]]⟩ 3
          (["p", "dev", "/", "db"] ++ (some "1h").toList)
          [RegistryOp.Prune (atSecond 100)]).value
        = Except.ok (leaseOf "p" "dev" "/" "db" (atSecond 140) [0]).Data
      ∧ (dynamicSecretTemplateFunctionAmong (utilOf etagAB (atSecond 200)) "tok"
          ⟨[leaseOf "p" "dev" "/" "db" (atSecond 140) [0]]⟩ 3
          (["p", "dev", "/", "db"] ++ (some "1h").toList)
          [RegistryOp.Prune (atSecond 100)]).requests = []
      ∧ (dynamicSecretTemplateFunctionAmong (utilOf etagAB (atSecond 200)) "tok"
          ⟨[leaseOf "p" "dev" "/" "db" (atSecond 140) [0]]⟩ 3
          (["p", "dev", "/", "db"] ++ (some "1h").toList)
          [RegistryOp.Prune (atSecond 100)]).manager.leases
        = [] ++ { leaseOf "p" "dev" "/" "db" (atSecond 140) [0] with
            TemplateIDs := (leaseOf "p" "dev" "/" "db" (atSecond 140) [0]).TemplateIDs ++ [3] }
          :: [])
    ∧ (dynamicSecretTemplateFunctionAmong (utilOf etagAB (atSecond 200)) "tok"
          NewDynamicSecretLeaseManager 3
          (["p", "dev", "/", "db"] ++ (none : Option String).toList)
          [RegistryOp.Prune (atSecond 100)]).requests
        = [⟨"tok", "p", "dev", "/", "db", (none : Option String).getD ""⟩]
    ∧ (dynamicSecretTemplateFunctionAmong (utilOf etagAB (atSecond 200)) "tok"
          ⟨[leaseOf "p" "dev" "/" "db" (atSecond 140) [0]]⟩ 3 ["p", "dev", "/"]
          [RegistryOp.Prune (atSecond 100)]).manager
        = ⟨[leaseOf "p" "dev" "/" "db" (atSecond 140) [0]]⟩ :=
  ⟨((dynamic_secret_lease_reuse (utilOf etagAB (atSecond 200)) "tok"
        ⟨[leaseOf "p" "dev" "/" "db" (atSecond 140) [0]]⟩ 3
        [RegistryOp.Prune (atSecond 100)] (by decide)).2 "p" "dev" "/" "db"
        (some "1h")).1 [] (leaseOf "p" "dev" "/" "db" (atSecond 140) [0]) [] rfl (by decide)
        (by intro x hx; cases hx),
    (((dynamic_secret_lease_reuse (utilOf etagAB (atSecond 200)) "tok"
        NewDynamicSecretLeaseManager 3 [RegistryOp.Prune (atSecond 100)]
        (by decide)).2 "p" "dev" "/" "db" none).2
        (by intro x hx; cases hx)).1,
    ((dynamic_secret_lease_reuse (utilOf etagAB (atSecond 200)) "tok"
        ⟨[leaseOf "p" "dev" "/" "db" (atSecond 140) [0]]⟩ 3
        [RegistryOp.Prune (atSecond 100)] (by decide)).1 ["p", "dev", "/"]
        (by decide) (by decide)).2.1⟩

end Agent
